import Mathlib

/-!
Verification of the iVisit identity-document field-extraction pipeline.

The definitions below are a shallow embedding of the TypeScript sources
(`src/utils/ocrFieldHelpers.ts`, `src/utils/idParsers.ts`,
`src/utils/cardCropper.ts`, `src/pages/ScanId/ScanIdPage.tsx`) and of the
Java multipass OCR scorer (`OcrController.java`).  Strings are modelled as
Lean `String`/`List Char`; the handful of JavaScript regular expressions
used by the code are implemented directly as deterministic matchers with
the same backtracking behaviour; JS number literals such as `0.95` are
modelled as rationals.
-/

namespace IVisit

/-- JS `\s` (ASCII part): the whitespace characters recognised by the
regexes and by `String.prototype.trim`. -/
def jsWs (c : Char) : Bool :=
  c = ' ' || c = '\t' || c = '\n' || c = '\r' || c = '\x0b' || c = '\x0c'

/-- JS `\w`: word characters `[A-Za-z0-9_]`, used for `\b` boundaries. -/
def isWordC (c : Char) : Bool :=
  c.isAlphanum || c = '_'

/-- Auxiliary for `collapseWs`: the flag records whether the previous
character was whitespace (so a whole run collapses to a single space). -/
def collapseWsAux : Bool → List Char → List Char
  | _, [] => []
  | prevWs, c :: cs =>
    if jsWs c then
      if prevWs then collapseWsAux true cs
      else ' ' :: collapseWsAux true cs
    else c :: collapseWsAux false cs

/-- JS `text.replace(/\s+/g, " ")`: collapse every whitespace run to one space. -/
def collapseWs (l : List Char) : List Char := collapseWsAux false l

/-- JS `String.prototype.trim`. -/
def trimL (l : List Char) : List Char :=
  ((l.dropWhile jsWs).reverse.dropWhile jsWs).reverse

/-- Literal list-of-chars match at the start of `l`. -/
def startsWithL : List Char → List Char → Bool
  | [], _ => true
  | _ :: _, [] => false
  | p :: ps, c :: cs => p = c && startsWithL ps cs

/-- Substring containment (case sensitive). -/
def containsL (pat : List Char) : List Char → Bool
  | [] => startsWithL pat []
  | c :: cs => startsWithL pat (c :: cs) || containsL pat cs

/-- ASCII uppercase of a char list (JS `toUpperCase` on the texts in scope). -/
def upperL (l : List Char) : List Char := l.map Char.toUpper

/-- ASCII lowercase of a char list (JS `toLowerCase` on the texts in scope). -/
def lowerL (l : List Char) : List Char := l.map Char.toLower

/-- Case-insensitive substring containment. -/
def containsCI (pat : List Char) (l : List Char) : Bool :=
  containsL (upperL pat) (upperL l)

/-! ## `extractNationalIdNumber` (ocrFieldHelpers.ts lines 75-102)

```ts
let cleaned = text.replace(/O/g, "0").replace(/[Il]/g, "1")
                  .replace(/\s+/g, " ").trim();
const match = cleaned.match(/\b\d{4}\s*-\s*\d{4}\s*-\s*\d{4}\s*-\s*\d{4}\b/);
if (!match) return "";
const digits = match[0].replace(/\D+/g, "");
if (digits.length !== 16) return "";
return [digits.slice(0,4), digits.slice(4,8), digits.slice(8,12),
        digits.slice(12)].join("-");
```
-/

/-- The OCR-confusion normalisation: `O`→`0`, `I`→`1`, `l`→`1`. -/
def normOcrChar (c : Char) : Char :=
  if c = 'O' then '0'
  else if c = 'I' then '1'
  else if c = 'l' then '1'
  else c

/-- `\d{4}`: exactly four decimal digits at the head; returns them and the rest. -/
def parseDigits4 : List Char → Option (List Char × List Char)
  | a :: b :: c :: d :: rest =>
    if a.isDigit && b.isDigit && c.isDigit && d.isDigit then
      some ([a, b, c, d], rest)
    else none
  | _ => none

/-- `\s*-\s*`: optional spaces, a dash, optional spaces. -/
def parseSepDash (l : List Char) : Option (List Char) :=
  match l.dropWhile jsWs with
  | '-' :: r => some (r.dropWhile jsWs)
  | _ => none

/-- Match `\d{4}\s*-\s*\d{4}\s*-\s*\d{4}\s*-\s*\d{4}\b` at the head of `l`,
returning the 16 matched digits (the trailing `\b` is the final check). -/
def matchIdAt (l : List Char) : Option (List Char) :=
  match parseDigits4 l with
  | none => none
  | some (g1, r1) =>
    match parseSepDash r1 with
    | none => none
    | some r1b =>
      match parseDigits4 r1b with
      | none => none
      | some (g2, r2) =>
        match parseSepDash r2 with
        | none => none
        | some r2b =>
          match parseDigits4 r2b with
          | none => none
          | some (g3, r3) =>
            match parseSepDash r3 with
            | none => none
            | some r3b =>
              match parseDigits4 r3b with
              | none => none
              | some (g4, r4) =>
                match r4 with
                | [] => some (g1 ++ g2 ++ g3 ++ g4)
                | c :: _ =>
                  if isWordC c then none else some (g1 ++ g2 ++ g3 ++ g4)

/-- Leftmost regex search for the national-id pattern.  The flag carries
whether the previous character is a word character (for the leading `\b`;
the first matched character is a digit, so the boundary holds exactly when
the previous character is not a word character). -/
def findIdMatch : Bool → List Char → Option (List Char)
  | _, [] => none
  | prevWord, c :: cs =>
    match if prevWord then none else matchIdAt (c :: cs) with
    | some ds => some ds
    | none => findIdMatch (isWordC c) cs

/-- `extractNationalIdNumber` on char lists. -/
def extractNatIdL (text : List Char) : List Char :=
  if text = [] then []
  else
    let cleaned := trimL (collapseWs (text.map normOcrChar))
    match findIdMatch false cleaned with
    | none => []
    | some digits =>
      if digits.length ≠ 16 then []
      else
        digits.take 4 ++ '-' :: ((digits.drop 4).take 4)
          ++ '-' :: ((digits.drop 8).take 4) ++ '-' :: digits.drop 12

/-- `extractNationalIdNumber` (ocrFieldHelpers.ts). -/
def extractNationalIdNumber (text : String) : String :=
  ⟨extractNatIdL text.data⟩

/-- Spec-side shape predicate: a canonical `####-####-####-####` string. -/
def IsCanonicalNatId (s : String) : Prop :=
  ∃ g1 g2 g3 g4 : List Char,
    (g1.length = 4 ∧ ∀ c ∈ g1, c.isDigit) ∧
    (g2.length = 4 ∧ ∀ c ∈ g2, c.isDigit) ∧
    (g3.length = 4 ∧ ∀ c ∈ g3, c.isDigit) ∧
    (g4.length = 4 ∧ ∀ c ∈ g4, c.isDigit) ∧
    s.data = g1 ++ '-' :: g2 ++ '-' :: g3 ++ '-' :: g4

theorem parseDigits4_spec {l : List Char} {g r : List Char}
    (h : parseDigits4 l = some (g, r)) :
    g.length = 4 ∧ ∀ c ∈ g, c.isDigit := by
  match l with
  | [] => simp [parseDigits4] at h
  | [a] => simp [parseDigits4] at h
  | [a, b] => simp [parseDigits4] at h
  | [a, b, c] => simp [parseDigits4] at h
  | a :: b :: c :: d :: rest =>
    rw [parseDigits4] at h
    split_ifs at h with hd
    · injection h with h1
      injection h1 with hg hr
      subst hg
      simp only [Bool.and_eq_true] at hd
      refine ⟨rfl, ?_⟩
      intro x hx
      simp only [List.mem_cons, List.not_mem_nil, or_false] at hx
      rcases hx with rfl | rfl | rfl | rfl
      · exact hd.1.1.1
      · exact hd.1.1.2
      · exact hd.1.2
      · exact hd.2

theorem matchIdAt_spec {l ds : List Char} (h : matchIdAt l = some ds) :
    ∃ g1 g2 g3 g4 : List Char,
      (g1.length = 4 ∧ ∀ c ∈ g1, c.isDigit) ∧
      (g2.length = 4 ∧ ∀ c ∈ g2, c.isDigit) ∧
      (g3.length = 4 ∧ ∀ c ∈ g3, c.isDigit) ∧
      (g4.length = 4 ∧ ∀ c ∈ g4, c.isDigit) ∧
      ds = g1 ++ (g2 ++ (g3 ++ g4)) := by
  rw [matchIdAt] at h
  rcases h1 : parseDigits4 l with _ | ⟨g1, r1⟩ <;> rw [h1] at h <;> dsimp only at h
  · exact absurd h (by simp)
  rcases h2 : parseSepDash r1 with _ | r1b <;> rw [h2] at h <;> dsimp only at h
  · exact absurd h (by simp)
  rcases h3 : parseDigits4 r1b with _ | ⟨g2, r2⟩ <;> rw [h3] at h <;> dsimp only at h
  · exact absurd h (by simp)
  rcases h4 : parseSepDash r2 with _ | r2b <;> rw [h4] at h <;> dsimp only at h
  · exact absurd h (by simp)
  rcases h5 : parseDigits4 r2b with _ | ⟨g3, r3⟩ <;> rw [h5] at h <;> dsimp only at h
  · exact absurd h (by simp)
  rcases h6 : parseSepDash r3 with _ | r3b <;> rw [h6] at h <;> dsimp only at h
  · exact absurd h (by simp)
  rcases h7 : parseDigits4 r3b with _ | ⟨g4, r4⟩ <;> rw [h7] at h <;> dsimp only at h
  · exact absurd h (by simp)
  have hds : ds = g1 ++ g2 ++ g3 ++ g4 := by
    rcases r4 with _ | ⟨c, r5⟩
    · simpa using h.symm
    · simp only at h
      split_ifs at h
      injection h with h1
      exact h1.symm
  refine ⟨g1, g2, g3, g4, parseDigits4_spec h1, parseDigits4_spec h3,
    parseDigits4_spec h5, parseDigits4_spec h7, ?_⟩
  simp [hds, List.append_assoc]

theorem findIdMatch_spec {ds : List Char} :
    ∀ (b : Bool) (l : List Char), findIdMatch b l = some ds →
      ∃ l2, matchIdAt l2 = some ds := by
  intro b l
  induction l generalizing b with
  | nil => intro h; simp [findIdMatch] at h
  | cons c cs ih =>
    intro h
    rw [findIdMatch] at h
    cases b with
    | true => exact ih _ (by simpa using h)
    | false =>
      rcases hm : matchIdAt (c :: cs) with _ | ds' <;> rw [hm] at h
      · exact ih _ h
      · injection h with h1
        exact ⟨c :: cs, by rw [hm, h1]⟩

/-- **C1.** `extractNationalIdNumber` normalises the OCR confusions
(`O`→`0`, `I`/`l`→`1`), searches for a `####-####-####-####` group with
spaces allowed around the dashes, and re-emits the match in canonical
`####-####-####-####` form (which always carries exactly 16 digits);
for any input with no such match — in particular 15- or 17-digit runs —
it returns the empty string.  The first conjunct shows every non-empty
output is a canonical 16-digit id. -/
theorem extractNationalIdNumber_claims :
    (∀ s : String,
        extractNationalIdNumber s = "" ∨ IsCanonicalNatId (extractNationalIdNumber s))
    ∧ extractNationalIdNumber "ID NO. l234-5678-9O12-3456" = "1234-5678-9012-3456"
    ∧ extractNationalIdNumber "1234 - 5678 - 9012 - 3456" = "1234-5678-9012-3456"
    ∧ extractNationalIdNumber "ID NO. 1234-5678-9012-345" = ""
    ∧ extractNationalIdNumber "ID NO. 1234-5678-9012-34567" = ""
    ∧ extractNationalIdNumber "no id here" = "" := by
  refine ⟨?_, by decide, by decide, by decide, by decide, by decide⟩
  intro s
  rw [extractNationalIdNumber, extractNatIdL]
  split_ifs with h0
  · left; rfl
  rcases hm : findIdMatch false (trimL (collapseWs (s.data.map normOcrChar)))
      with _ | ds <;> dsimp only <;> rw [hm] <;> dsimp only
  · left; rfl
  obtain ⟨l2, hl2⟩ := findIdMatch_spec _ _ hm
  obtain ⟨g1, g2, g3, g4, hg1, hg2, hg3, hg4, hds⟩ := matchIdAt_spec hl2
  have hlen : ds.length = 16 := by
    simp [hds, hg1.1, hg2.1, hg3.1, hg4.1]
  have ht1 : ds.take 4 = g1 := by
    rw [hds]; exact List.take_left' hg1.1
  have hd4 : ds.drop 4 = g2 ++ (g3 ++ g4) := by
    rw [hds]; exact List.drop_left' hg1.1
  have ht2 : (ds.drop 4).take 4 = g2 := by
    rw [hd4]; exact List.take_left' hg2.1
  have hd8 : ds.drop 8 = g3 ++ g4 := by
    rw [hds, ← List.append_assoc]
    exact List.drop_left' (by simp [hg1.1, hg2.1])
  have ht3 : (ds.drop 8).take 4 = g3 := by
    rw [hd8]; exact List.take_left' hg3.1
  have hd12 : ds.drop 12 = g4 := by
    rw [hds, ← List.append_assoc, ← List.append_assoc]
    exact List.drop_left' (by simp [hg1.1, hg2.1, hg3.1])
  rw [if_neg (by simp [hlen])]
  right
  exact ⟨g1, g2, g3, g4, hg1, hg2, hg3, hg4, by
    show ds.take 4 ++ '-' :: (ds.drop 4).take 4 ++ '-' :: (ds.drop 8).take 4
        ++ '-' :: ds.drop 12 = _
    rw [ht1, ht2, ht3, hd12]⟩

/-! ## `normalizeDate` (idParsers.ts lines 291-325)

```ts
const cleaned = dateStr.trim().replace(/[,]/g, "").toLowerCase();
for (let i = 0; i < monthNames.length; i++) {
  if (cleaned.includes(monthNames[i])) {
    const regex = new RegExp(monthNames[i] + "\\s+(\\d{1,2})\\s+(\\d{4})");
    const match = cleaned.match(regex);
    if (match) { ... return year-month-day; }
  }
}
const numeric = cleaned.match(/(\d{1,2})[\/\-](\d{1,2})[\/\-](\d{2,4})/);
if (numeric) { if (y.length === 2) y = "20" + y; return y-m-d (padded); }
return "";
```
-/

/-- `padStart(2, "0")`. -/
def pad2 (l : List Char) : List Char :=
  List.replicate (2 - l.length) '0' ++ l

/-- Take exactly `n` leading decimal digits (more digits may follow; in the
regexes in scope `\d{n}` is never followed by a pattern that forbids it). -/
def grabDigits (n : Nat) (l : List Char) : Option (List Char × List Char) :=
  let t := l.take n
  if t.length = n && t.all Char.isDigit then some (t, l.drop n) else none

/-- `\s+(\d{4})` after the day digits of the month-name date regex. -/
def monthYearAt (day : List Char) (l : List Char) :
    Option (List Char × List Char) :=
  match l with
  | [] => none
  | c :: r =>
    if jsWs c then
      match grabDigits 4 (r.dropWhile jsWs) with
      | some (y, _) => some (day, y)
      | none => none
    else none

/-- After the month name: `\s+(\d{1,2})\s+(\d{4})`, greedy day with
backtracking (two digits first, then one).  Returns (day, year). -/
def matchMonthTailAt (l : List Char) : Option (List Char × List Char) :=
  match l with
  | [] => none
  | c :: r =>
    if jsWs c then
      let r1 := r.dropWhile jsWs
      (match grabDigits 2 r1 with
       | some (day, r2) => monthYearAt day r2
       | none => none) <|>
      (match grabDigits 1 r1 with
       | some (day, r2) => monthYearAt day r2
       | none => none)
    else none

/-- Leftmost search for `month\s+(\d{1,2})\s+(\d{4})`. -/
def monthScan (month : List Char) : List Char → Option (List Char × List Char)
  | [] => none
  | c :: rest =>
    (if startsWithL month (c :: rest) then
        matchMonthTailAt ((c :: rest).drop month.length)
      else none) <|>
    monthScan month rest

/-- The month-name table; the two-digit code is `(i+1).toString().padStart(2,"0")`
for the month's index `i`, precomputed. -/
def monthNames : List (List Char × List Char) :=
  [("january".data, "01".data), ("february".data, "02".data),
   ("march".data, "03".data), ("april".data, "04".data),
   ("may".data, "05".data), ("june".data, "06".data),
   ("july".data, "07".data), ("august".data, "08".data),
   ("september".data, "09".data), ("october".data, "10".data),
   ("november".data, "11".data), ("december".data, "12".data)]

/-- The `for` loop over month names: first month contained in the text whose
anchored regex also matches yields `year-month-day`. -/
def monthLoop : List (List Char × List Char) → List Char → Option (List Char)
  | [], _ => none
  | (name, code) :: rest, cleaned =>
    if containsL name cleaned then
      match monthScan name cleaned with
      | some (day, year) => some (year ++ '-' :: code ++ '-' :: pad2 day)
      | none => monthLoop rest cleaned
    else monthLoop rest cleaned

/-- `[\/\-]`. -/
def parseSlashDash (l : List Char) : Option (List Char) :=
  match l with
  | '/' :: r => some r
  | '-' :: r => some r
  | _ => none

/-- One backtracking alternative of `(\d{1,2})[\/\-](\d{1,2})[\/\-](\d{2,4})`
with fixed field widths; returns (m, d, y). -/
def numAtWith (n1 n2 n3 : Nat) (l : List Char) :
    Option (List Char × List Char × List Char) :=
  match grabDigits n1 l with
  | none => none
  | some (m, r1) =>
    match parseSlashDash r1 with
    | none => none
    | some r2 =>
      match grabDigits n2 r2 with
      | none => none
      | some (d, r3) =>
        match parseSlashDash r3 with
        | none => none
        | some r4 =>
          match grabDigits n3 r4 with
          | none => none
          | some (y, _) => some (m, d, y)

/-- `(\d{1,2})[\/\-](\d{1,2})[\/\-](\d{2,4})` at the head of `l`, trying the
alternatives in the regex engine's greedy backtracking order. -/
def numAt (l : List Char) : Option (List Char × List Char × List Char) :=
  numAtWith 2 2 4 l <|> numAtWith 2 2 3 l <|> numAtWith 2 2 2 l <|>
  numAtWith 2 1 4 l <|> numAtWith 2 1 3 l <|> numAtWith 2 1 2 l <|>
  numAtWith 1 2 4 l <|> numAtWith 1 2 3 l <|> numAtWith 1 2 2 l <|>
  numAtWith 1 1 4 l <|> numAtWith 1 1 3 l <|> numAtWith 1 1 2 l

/-- Leftmost search for the numeric date pattern (no `\b` in this regex). -/
def numScan : List Char → Option (List Char × List Char × List Char)
  | [] => none
  | c :: rest => numAt (c :: rest) <|> numScan rest

/-- `normalizeDate` on char lists. -/
def normalizeDateL (l : List Char) : List Char :=
  if l = [] then []
  else
    let cleaned := lowerL ((trimL l).filter (· ≠ ','))
    match monthLoop monthNames cleaned with
    | some r => r
    | none =>
      match numScan cleaned with
      | some (m, d, y) =>
        let y2 := if y.length = 2 then '2' :: '0' :: y else y
        y2 ++ '-' :: pad2 m ++ '-' :: pad2 d
      | none => []

/-- `normalizeDate` (idParsers.ts). -/
def normalizeDate (s : String) : String :=
  ⟨normalizeDateL s.data⟩

theorem orElse_some {α : Type} {a b : Option α} {v : α}
    (h : (a <|> b) = some v) : a = some v ∨ b = some v := by
  cases a with
  | none => right; simpa using h
  | some x => left; simpa using h

theorem grabDigits_spec {n : Nat} {l t r : List Char}
    (h : grabDigits n l = some (t, r)) :
    t.length = n ∧ ∀ c ∈ t, c.isDigit := by
  rw [grabDigits] at h
  split_ifs at h with hc
  · simp only [Bool.and_eq_true, decide_eq_true_eq, List.all_eq_true] at hc
    injection h with h1
    injection h1 with ht hr
    subst ht
    exact ⟨hc.1, hc.2⟩

theorem matchMonthYearAt_spec {day l d2 y : List Char}
    (h : monthYearAt day l = some (d2, y)) :
    d2 = day ∧ y.length = 4 ∧ ∀ c ∈ y, c.isDigit := by
  rw [monthYearAt.eq_def] at h
  rcases l with _ | ⟨c, r⟩
  · exact absurd h (by simp)
  dsimp only at h
  split_ifs at h
  rcases hg : grabDigits 4 (r.dropWhile jsWs) with _ | ⟨yy, rr⟩ <;> rw [hg] at h
  · exact absurd h (by simp)
  · injection h with h1
    injection h1 with hd hy
    subst hd; subst hy
    obtain ⟨h1, h2⟩ := grabDigits_spec hg
    exact ⟨rfl, h1, h2⟩

theorem matchMonthTailAt_spec {l day y : List Char}
    (h : matchMonthTailAt l = some (day, y)) :
    (day.length = 1 ∨ day.length = 2) ∧ (∀ c ∈ day, c.isDigit) ∧
      y.length = 4 ∧ ∀ c ∈ y, c.isDigit := by
  rw [matchMonthTailAt.eq_def] at h
  rcases l with _ | ⟨c, r⟩
  · exact absurd h (by simp)
  dsimp only at h
  split_ifs at h
  rcases orElse_some h with h2 | h2
  · rcases hg : grabDigits 2 (r.dropWhile jsWs) with _ | ⟨dd, rr⟩ <;>
      rw [hg] at h2
    · exact absurd h2 (by simp)
    obtain ⟨rfl, hy1, hy2⟩ := matchMonthYearAt_spec h2
    obtain ⟨hl, hd⟩ := grabDigits_spec hg
    exact ⟨Or.inr hl, hd, hy1, hy2⟩
  · rcases hg : grabDigits 1 (r.dropWhile jsWs) with _ | ⟨dd, rr⟩ <;>
      rw [hg] at h2
    · exact absurd h2 (by simp)
    obtain ⟨rfl, hy1, hy2⟩ := matchMonthYearAt_spec h2
    obtain ⟨hl, hd⟩ := grabDigits_spec hg
    exact ⟨Or.inl hl, hd, hy1, hy2⟩

theorem monthScan_spec {m l day y : List Char}
    (h : monthScan m l = some (day, y)) :
    ∃ l2, matchMonthTailAt l2 = some (day, y) := by
  induction l with
  | nil => simp [monthScan] at h
  | cons c cs ih =>
    rw [monthScan] at h
    rcases orElse_some h with h2 | h2
    · split_ifs at h2
      exact ⟨_, h2⟩
    · exact ih h2

theorem pad2_spec {l : List Char} (h1 : l.length = 1 ∨ l.length = 2)
    (h2 : ∀ c ∈ l, c.isDigit) :
    (pad2 l).length = 2 ∧ ∀ c ∈ pad2 l, c.isDigit := by
  constructor
  · rw [pad2, List.length_append, List.length_replicate]; omega
  · intro c hc
    rw [pad2, List.mem_append] at hc
    rcases hc with hc | hc
    · rw [List.eq_of_mem_replicate hc]; decide
    · exact h2 c hc

theorem monthLoop_spec {table : List (List Char × List Char)} {cleaned r : List Char}
    (hc : ∀ p ∈ table, p.2.length = 2 ∧ ∀ c ∈ p.2, c.isDigit)
    (h : monthLoop table cleaned = some r) :
    ∃ y mo d : List Char,
      (y.length = 4 ∧ ∀ c ∈ y, c.isDigit) ∧
      (mo.length = 2 ∧ ∀ c ∈ mo, c.isDigit) ∧
      (d.length = 2 ∧ ∀ c ∈ d, c.isDigit) ∧
      r = y ++ '-' :: mo ++ '-' :: d := by
  induction table with
  | nil => simp [monthLoop] at h
  | cons p rest ih =>
    obtain ⟨name, code⟩ := p
    rw [monthLoop] at h
    split_ifs at h
    · rcases hs : monthScan name cleaned with _ | ⟨day, year⟩ <;> rw [hs] at h
      · exact ih (fun q hq => hc q (List.mem_cons_of_mem _ hq)) h
      · injection h with h1
        obtain ⟨l2, hl2⟩ := monthScan_spec hs
        obtain ⟨hd1, hd2, hy1, hy2⟩ := matchMonthTailAt_spec hl2
        obtain ⟨hc1, hc2⟩ := hc (name, code) (List.mem_cons_self _ _)
        exact ⟨year, code, pad2 day, ⟨hy1, hy2⟩, ⟨hc1, hc2⟩,
          pad2_spec hd1 hd2, h1.symm⟩
    · exact ih (fun q hq => hc q (List.mem_cons_of_mem _ hq)) h

theorem numAtWith_spec {n1 n2 n3 : Nat} {l m d y : List Char}
    (h : numAtWith n1 n2 n3 l = some (m, d, y)) :
    m.length = n1 ∧ (∀ c ∈ m, c.isDigit) ∧ d.length = n2 ∧
      (∀ c ∈ d, c.isDigit) ∧ y.length = n3 ∧ ∀ c ∈ y, c.isDigit := by
  rw [numAtWith] at h
  rcases h1 : grabDigits n1 l with _ | ⟨mm, r1⟩ <;> rw [h1] at h <;> dsimp only at h
  · exact absurd h (by simp)
  rcases h2 : parseSlashDash r1 with _ | r2 <;> rw [h2] at h <;> dsimp only at h
  · exact absurd h (by simp)
  rcases h3 : grabDigits n2 r2 with _ | ⟨dd, r3⟩ <;> rw [h3] at h <;> dsimp only at h
  · exact absurd h (by simp)
  rcases h4 : parseSlashDash r3 with _ | r4 <;> rw [h4] at h <;> dsimp only at h
  · exact absurd h (by simp)
  rcases h5 : grabDigits n3 r4 with _ | ⟨yy, r5⟩ <;> rw [h5] at h <;> dsimp only at h
  · exact absurd h (by simp)
  injection h with h6
  injection h6 with hm h7
  injection h7 with hd hy
  subst hm; subst hd; subst hy
  obtain ⟨a1, a2⟩ := grabDigits_spec h1
  obtain ⟨b1, b2⟩ := grabDigits_spec h3
  obtain ⟨c1, c2⟩ := grabDigits_spec h5
  exact ⟨a1, a2, b1, b2, c1, c2⟩

theorem numAt_spec {l m d y : List Char} (h : numAt l = some (m, d, y)) :
    (m.length = 1 ∨ m.length = 2) ∧ (∀ c ∈ m, c.isDigit) ∧
    (d.length = 1 ∨ d.length = 2) ∧ (∀ c ∈ d, c.isDigit) ∧
    (y.length = 2 ∨ y.length = 3 ∨ y.length = 4) ∧ ∀ c ∈ y, c.isDigit := by
  rw [numAt] at h
  rcases orElse_some h with h | h; swap
  iterate 10
    rcases orElse_some h with h | h; swap
  all_goals
    obtain ⟨a1, a2, b1, b2, c1, c2⟩ := numAtWith_spec h
    exact ⟨by omega, a2, by omega, b2, by omega, c2⟩

theorem numScan_spec {l m d y : List Char} (h : numScan l = some (m, d, y)) :
    ∃ l2, numAt l2 = some (m, d, y) := by
  induction l with
  | nil => simp [numScan] at h
  | cons c cs ih =>
    rw [numScan] at h
    rcases orElse_some h with h | h
    · exact ⟨_, h⟩
    · exact ih h

/-- Spec-side output shape: `y-m-d` with a 3- or 4-digit year and two-digit
month and day fields, all digits. -/
def IsDashedDate (s : String) : Prop :=
  ∃ y mo d : List Char,
    ((y.length = 3 ∨ y.length = 4) ∧ ∀ c ∈ y, c.isDigit) ∧
    (mo.length = 2 ∧ ∀ c ∈ mo, c.isDigit) ∧
    (d.length = 2 ∧ ∀ c ∈ d, c.isDigit) ∧
    s.data = y ++ '-' :: mo ++ '-' :: d

/-- **C5 (counterexample).** The claim says `normalizeDate` accepts the
abbreviated month form `"Jan. 3, 1999"`; the code's month loop only knows
full month names and the numeric branch needs `/` or `-` separators, so this
input yields the empty string, not `"1999-01-03"`. -/
theorem normalizeDate_abbrev_counterexample :
    normalizeDate "Jan. 3, 1999" = "" ∧
      normalizeDate "Jan. 3, 1999" ≠ "1999-01-03" := by
  constructor <;> decide

/-- **C5 (amended).** `normalizeDate` accepts full month-name form
(`"January 3 1999"`, commas stripped) and positional numeric form
(one-or-two-digit fields separated by `/` or `-`), emits a dashed
`year-month-day` string with two-digit years expanded by prefixing `"20"`,
and returns the empty string for any input matching neither format — in
particular for the abbreviated month form `"Jan. 3, 1999"` (which is handled
elsewhere, not by `normalizeDate`).  The universal conjunct shows every
non-empty output is a dashed all-digit date. -/
theorem normalizeDate_claims :
    (∀ s : String, normalizeDate s = "" ∨ IsDashedDate (normalizeDate s))
    ∧ normalizeDate "January 3 1999" = "1999-01-03"
    ∧ normalizeDate "January 3, 1999" = "1999-01-03"
    ∧ normalizeDate "03/01/1999" = "1999-03-01"
    ∧ normalizeDate "3-1-99" = "2099-03-01"
    ∧ normalizeDate "Jan. 3, 1999" = ""
    ∧ normalizeDate "no date" = "" := by
  refine ⟨?_, by decide, by decide, by decide, by decide, by decide, by decide⟩
  intro s
  rw [normalizeDate, normalizeDateL]
  split_ifs with h0
  · left; rfl
  rcases hm : monthLoop monthNames (lowerL ((trimL s.data).filter (· ≠ ',')))
      with _ | r <;> dsimp only <;> rw [hm] <;> dsimp only
  · rcases hn : numScan (lowerL ((trimL s.data).filter (· ≠ ',')))
        with _ | ⟨m, d, y⟩ <;> dsimp only
    · left; rfl
    · right
      obtain ⟨l2, hl2⟩ := numScan_spec hn
      obtain ⟨a1, a2, b1, b2, c1, c2⟩ := numAt_spec hl2
      refine ⟨if y.length = 2 then '2' :: '0' :: y else y, pad2 m, pad2 d,
        ⟨?_, ?_⟩, pad2_spec a1 a2, pad2_spec b1 b2, rfl⟩
      · split_ifs with hy
        · right; simp [hy]
        · rcases c1 with h | h | h
          · exact absurd h hy
          · exact Or.inl h
          · exact Or.inr h
      · intro c hc
        split_ifs at hc with hy
        · simp only [List.mem_cons] at hc
          rcases hc with rfl | rfl | hc
          · decide
          · decide
          · exact c2 c hc
        · exact c2 c hc
  · right
    obtain ⟨y, mo, d, hy, hmo, hd, hr⟩ :=
      monthLoop_spec (by decide) hm
    exact ⟨y, mo, d, ⟨Or.inr hy.1, hy.2⟩, hmo, hd, hr⟩

/-! ## ROI id-number fallback (ScanIdPage.tsx lines 253-256)

```ts
if (fieldImages.idNumber) {
  const text = await ocrDataUrlViaHelper(fieldImages.idNumber);
  roiIdNumber = extractNationalIdNumber(text) || text.trim();
}
```
-/

/-- JS `trim` on a `String`. -/
def trimStr (s : String) : String := ⟨trimL s.data⟩

/-- The ROI id-number value fed into the merge step: the canonical national
id if one was recognised, otherwise the raw trimmed ROI OCR text. -/
def roiIdNumberOf (text : String) : String :=
  if extractNationalIdNumber text ≠ "" then extractNationalIdNumber text
  else trimStr text

/-- **C9.** The ROI-derived `idNumber` equals `extractNationalIdNumber text`
when that is non-empty and otherwise falls back to the raw trimmed ROI OCR
text; hence any ROI text that is non-empty after trimming produces a
non-empty ROI `idNumber`, even when it is not a valid canonical national id. -/
theorem roiIdNumber_claims (text : String) :
    (extractNationalIdNumber text ≠ "" →
      roiIdNumberOf text = extractNationalIdNumber text) ∧
    (extractNationalIdNumber text = "" → roiIdNumberOf text = trimStr text) ∧
    (trimStr text ≠ "" → roiIdNumberOf text ≠ "") := by
  refine ⟨fun h => by rw [roiIdNumberOf, if_pos h],
    fun h => by rw [roiIdNumberOf, if_neg (by simp [h])], fun ht => ?_⟩
  rw [roiIdNumberOf]
  split_ifs with h
  · exact h
  · exact ht

/-- Witness for C9 at `"SERIAL 12/3"`: no canonical national id is found,
yet the trimmed text is non-empty, so the ROI id number is the raw text. -/
theorem roiIdNumber_claims_witness :
    extractNationalIdNumber " SERIAL 12/3 " = "" ∧
      trimStr " SERIAL 12/3 " = "SERIAL 12/3" ∧
      roiIdNumberOf " SERIAL 12/3 " = trimStr " SERIAL 12/3 " ∧
      roiIdNumberOf " SERIAL 12/3 " ≠ "" :=
  ⟨by decide, by decide,
    (roiIdNumber_claims " SERIAL 12/3 ").2.1 (by decide),
    (roiIdNumber_claims " SERIAL 12/3 ").2.2 (by decide)⟩

/-! ## Data model (idParsers.ts `ExtractedInfo`) and the merge step
(ScanIdPage.tsx `handleScanClick`, lines 274-307). -/

/-- Per-field confidence block of `ExtractedInfo`; JS number literals are
modelled as rationals. -/
structure ConfidenceInfo where
  fullName : ℚ
  dob : ℚ
  idNumber : ℚ
  address : Option ℚ := none
  deriving DecidableEq, Repr

/-- `ExtractedInfo` (idParsers.ts). -/
structure ExtractedInfo where
  fullName : String
  dob : String
  idNumber : String
  idType : String
  address : Option String := none
  confidence : Option ConfidenceInfo := none
  deriving DecidableEq, Repr

/-- JS `a || b` on strings (the empty string is falsy). -/
def jsStrOr (a b : String) : String := if a ≠ "" then a else b

/-- `isReasonableName` (ScanIdPage.tsx): trimmed length at least 5, no
`name` substring (case-insensitive), and at least one whitespace character. -/
def isReasonableName (candidate : String) : Bool :=
  let trimmed := trimStr candidate
  if trimmed.data.length < 5 then false
  else if containsCI "name".data trimmed.data then false
  else if !trimmed.data.any jsWs then false
  else true

/-- `mergedFullName` (ScanIdPage.tsx): for the National-ID type the
whole-card name takes precedence over the ROI name; otherwise the ROI name
is used only when non-empty and reasonable. -/
def mergedFullNameOf (selectedIdType roiFullName cardFullName : String) : String :=
  if selectedIdType = "National ID" then
    jsStrOr (jsStrOr cardFullName roiFullName) ""
  else
    jsStrOr
      (if roiFullName ≠ "" ∧ isReasonableName roiFullName = true then roiFullName
       else cardFullName) ""

/-- `mergedDob` (ScanIdPage.tsx): `roiDob || fromFull.dob || ""`. -/
def mergedDobOf (roiDob cardDob : String) : String :=
  jsStrOr roiDob (jsStrOr cardDob "")

/-- `mergedIdNumber` (ScanIdPage.tsx): `roiIdNumber || fromFull.idNumber || ""`. -/
def mergedIdNumberOf (roiIdNumber cardIdNumber : String) : String :=
  jsStrOr roiIdNumber (jsStrOr cardIdNumber "")

/-- The merged record the scan pipeline hands to the registration form. -/
structure MergedRecord where
  fullName : String
  dob : String
  idNumber : String
  idType : String
  deriving DecidableEq, Repr

/-- The toast text of the no-data failure path (apostrophe elided). -/
def noDataMsg : String :=
  "OCR could not extract details. Adjust lighting/position, retry, or use Manual Entry."

/-- The merge step of `handleScanClick`: combines ROI fields with the
whole-card parse; when neither the merged fields nor any raw ROI value carry
data it surfaces the retryable no-data failure instead of a record. -/
def mergeScan (selectedIdType roiFullName roiDob roiIdNumber : String)
    (fromFull : ExtractedInfo) : Except String MergedRecord :=
  let mergedFullName := mergedFullNameOf selectedIdType roiFullName fromFull.fullName
  let mergedDob := mergedDobOf roiDob fromFull.dob
  let mergedIdNumber := mergedIdNumberOf roiIdNumber fromFull.idNumber
  let mergedIdType := jsStrOr fromFull.idType (jsStrOr selectedIdType "Unknown")
  let hasUsefulData :=
    0 < mergedFullName.length ∨ 0 < mergedDob.length ∨ 0 < mergedIdNumber.length
  let roiHasAnyData := roiFullName ≠ "" ∨ roiDob ≠ "" ∨ roiIdNumber ≠ ""
  if ¬hasUsefulData ∧ ¬roiHasAnyData then
    .error noDataMsg
  else
    .ok ⟨mergedFullName, mergedDob, mergedIdNumber, mergedIdType⟩

theorem strPos_iff (s : String) : 0 < s.length ↔ s ≠ "" := by
  rw [String.length]
  constructor
  · intro h hs
    subst hs
    simp at h
  · intro h
    rcases hd : s.data with _ | ⟨c, cs⟩
    · exact absurd (String.ext hd) h
    · simp [hd]

/-- **C3.** If all three merged fields are empty and no ROI OCR value is
non-empty, the merge step surfaces the retryable no-data failure (a
human-readable reason, no record); if any merged field or any ROI value is
non-empty, a record is produced. -/
theorem mergeScan_no_signal_claims
    (selTy roiName roiDob roiId : String) (full : ExtractedInfo) :
    ((mergedFullNameOf selTy roiName full.fullName = "" ∧
      mergedDobOf roiDob full.dob = "" ∧
      mergedIdNumberOf roiId full.idNumber = "" ∧
      roiName = "" ∧ roiDob = "" ∧ roiId = "") →
        mergeScan selTy roiName roiDob roiId full = .error noDataMsg ∧
          noDataMsg ≠ "") ∧
    ((mergedFullNameOf selTy roiName full.fullName ≠ "" ∨
      mergedDobOf roiDob full.dob ≠ "" ∨
      mergedIdNumberOf roiId full.idNumber ≠ "" ∨
      roiName ≠ "" ∨ roiDob ≠ "" ∨ roiId ≠ "") →
        mergeScan selTy roiName roiDob roiId full =
          .ok ⟨mergedFullNameOf selTy roiName full.fullName,
               mergedDobOf roiDob full.dob,
               mergedIdNumberOf roiId full.idNumber,
               jsStrOr full.idType (jsStrOr selTy "Unknown")⟩) := by
  constructor
  · rintro ⟨h1, h2, h3, h4, h5, h6⟩
    refine ⟨?_, by decide⟩
    rw [mergeScan]
    split_ifs with hc
    · rfl
    · exfalso
      apply hc
      constructor
      · rw [not_or, not_or, strPos_iff, strPos_iff, strPos_iff]
        exact ⟨not_not.mpr h1, not_not.mpr h2, not_not.mpr h3⟩
      · rw [not_or, not_or]
        exact ⟨not_not.mpr h4, not_not.mpr h5, not_not.mpr h6⟩
  · intro h
    rw [mergeScan]
    split_ifs with hc
    · exfalso
      obtain ⟨hu, hr⟩ := hc
      rw [not_or, not_or, strPos_iff, strPos_iff, strPos_iff] at hu
      rw [not_or, not_or] at hr
      rcases h with h | h | h | h | h | h
      · exact hu.1 h
      · exact hu.2.1 h
      · exact hu.2.2 h
      · exact hr.1 h
      · exact hr.2.1 h
      · exact hr.2.2 h
    · rfl

/-- Witness for C3: with every input empty the merge fails with the
no-data reason; with a single non-empty ROI dob a record is produced. -/
theorem mergeScan_no_signal_claims_witness :
    (mergeScan "SSS ID" "" "" "" ⟨"", "", "", "", none, none⟩ =
      .error noDataMsg) ∧
    (mergeScan "SSS ID" "" "1999-01-03" "" ⟨"", "", "", "", none, none⟩ =
      .ok ⟨"", "1999-01-03", "", "SSS ID"⟩) :=
  ⟨((mergeScan_no_signal_claims "SSS ID" "" "" ""
      ⟨"", "", "", "", none, none⟩).1
        (by refine ⟨?_, ?_, ?_, rfl, rfl, rfl⟩ <;> decide)).1,
    by
      have := (mergeScan_no_signal_claims "SSS ID" "" "1999-01-03" ""
        ⟨"", "", "", "", none, none⟩).2
          (Or.inr (Or.inr (Or.inr (Or.inr (Or.inl (by decide))))))
      rw [this]; rfl⟩

/-- **C4.** The merged `dob` and `idNumber` each take the ROI value when it
is non-empty and the whole-card value otherwise; the merged `fullName`
prefers the whole-card name for the National-ID type and otherwise takes
the ROI name exactly when it passes the name-likelihood check (trimmed
length at least 5, contains whitespace, no case-insensitive `name`
substring), falling back to the whole-card name. -/
theorem merged_fields_claims
    (selTy roiName roiDob roiId : String) (full : ExtractedInfo) :
    (roiDob ≠ "" → mergedDobOf roiDob full.dob = roiDob) ∧
    (roiDob = "" → mergedDobOf roiDob full.dob = full.dob) ∧
    (roiId ≠ "" → mergedIdNumberOf roiId full.idNumber = roiId) ∧
    (roiId = "" → mergedIdNumberOf roiId full.idNumber = full.idNumber) ∧
    (selTy = "National ID" → full.fullName ≠ "" →
      mergedFullNameOf selTy roiName full.fullName = full.fullName) ∧
    (selTy = "National ID" → full.fullName = "" →
      mergedFullNameOf selTy roiName full.fullName = roiName) ∧
    (selTy ≠ "National ID" → roiName ≠ "" → isReasonableName roiName = true →
      mergedFullNameOf selTy roiName full.fullName = roiName) ∧
    (selTy ≠ "National ID" → (roiName = "" ∨ isReasonableName roiName = false) →
      mergedFullNameOf selTy roiName full.fullName = full.fullName) ∧
    (∀ s : String,
      isReasonableName s = true ↔
        (5 ≤ (trimStr s).data.length ∧ (trimStr s).data.any jsWs = true ∧
          containsCI "name".data (trimStr s).data = false)) := by
  refine ⟨?_, ?_, ?_, ?_, ?_, ?_, ?_, ?_, ?_⟩
  · intro h; rw [mergedDobOf, jsStrOr, if_pos h]
  · intro h
    rw [mergedDobOf, jsStrOr, if_neg (by simp [h]), jsStrOr]
    split_ifs with h2
    · rfl
    · simp at h2; rw [h2]
  · intro h; rw [mergedIdNumberOf, jsStrOr, if_pos h]
  · intro h
    rw [mergedIdNumberOf, jsStrOr, if_neg (by simp [h]), jsStrOr]
    split_ifs with h2
    · rfl
    · simp at h2; rw [h2]
  · intro hn hf
    have hinner : jsStrOr full.fullName roiName = full.fullName := by
      rw [jsStrOr, if_pos hf]
    rw [mergedFullNameOf, if_pos hn, hinner, jsStrOr, if_pos hf]
  · intro hn hf
    have hinner : jsStrOr full.fullName roiName = roiName := by
      rw [jsStrOr, if_neg (by simp [hf])]
    rw [mergedFullNameOf, if_pos hn, hinner, jsStrOr]
    split_ifs with h2
    · rfl
    · rw [not_not] at h2; rw [h2]
  · intro hn hr hok
    have hinner :
        (if roiName ≠ "" ∧ isReasonableName roiName = true then roiName
         else full.fullName) = roiName := if_pos ⟨hr, hok⟩
    rw [mergedFullNameOf, if_neg hn, hinner, jsStrOr, if_pos hr]
  · intro hn hr
    have hinner :
        (if roiName ≠ "" ∧ isReasonableName roiName = true then roiName
         else full.fullName) = full.fullName := by
      apply if_neg
      rintro ⟨a, b⟩
      rcases hr with hr | hr
      · exact a hr
      · rw [hr] at b; exact Bool.false_ne_true b
    rw [mergedFullNameOf, if_neg hn, hinner, jsStrOr]
    split_ifs with h2
    · rfl
    · rw [not_not] at h2; rw [h2]
  · intro s
    rw [isReasonableName]
    constructor
    · intro h
      split_ifs at h with h1 h2 h3
      refine ⟨by omega, ?_, by simpa using h2⟩
      simpa using h3
    · rintro ⟨h1, h2, h3⟩
      rw [if_neg (by omega), if_neg (by simp [h3]), if_neg (by simp [h2])]

/-- Witness for C4 at concrete inputs covering each hypothesis. -/
theorem merged_fields_claims_witness :
    (mergedDobOf "1999-01-03" "x" = "1999-01-03") ∧
    (mergedDobOf "" "x" = "x") ∧
    (mergedIdNumberOf "12-34" "y" = "12-34") ∧
    (mergedIdNumberOf "" "y" = "y") ∧
    (mergedFullNameOf "National ID" "ROI NAME X" "CARD NAME" = "CARD NAME") ∧
    (mergedFullNameOf "National ID" "ROI X" "" = "ROI X") ∧
    (mergedFullNameOf "SSS ID" "JUAN CRUZ" "CARD" = "JUAN CRUZ") ∧
    (mergedFullNameOf "SSS ID" "J" "CARD" = "CARD") ∧
    (isReasonableName "JUAN CRUZ" = true) := by
  have h := merged_fields_claims "SSS ID" "J" "" ""
    ⟨"CARD", "x", "y", "", none, none⟩
  refine ⟨(merged_fields_claims "x" "y" "1999-01-03" "z"
      ⟨"", "x", "y", "", none, none⟩).1 (by decide),
    (merged_fields_claims "x" "y" "" "z"
      ⟨"", "x", "y", "", none, none⟩).2.1 rfl,
    (merged_fields_claims "x" "y" "" "12-34"
      ⟨"", "x", "y", "", none, none⟩).2.2.1 (by decide),
    (merged_fields_claims "x" "y" "" ""
      ⟨"", "x", "y", "", none, none⟩).2.2.2.1 rfl,
    (merged_fields_claims "National ID" "ROI NAME X" "" ""
      ⟨"CARD NAME", "", "", "", none, none⟩).2.2.2.2.1 rfl (by decide),
    (merged_fields_claims "National ID" "ROI X" "" ""
      ⟨"", "", "", "", none, none⟩).2.2.2.2.2.1 rfl rfl,
    (merged_fields_claims "SSS ID" "JUAN CRUZ" "" ""
      ⟨"CARD", "", "", "", none, none⟩).2.2.2.2.2.2.1 (by decide) (by decide)
        (by decide),
    h.2.2.2.2.2.2.2.1 (by decide) (Or.inr (by decide)),
    by decide⟩

/-! ## `detectIdType` (idParsers.ts lines 190-288)

Each JS regex `/.../.test(text)` becomes a scanner over the char list with
the same alternation/backtracking behaviour.  Case-insensitive matching is
done by comparing uppercased characters. -/

/-- Case-insensitive literal match at the head of `l`. -/
def startsWithCI : List Char → List Char → Bool
  | [], _ => true
  | _ :: _, [] => false
  | p :: ps, c :: cs => (p.toUpper = c.toUpper) && startsWithCI ps cs

/-- Unanchored search: does `test` succeed at some suffix? -/
def scanHas (test : List Char → Bool) : List Char → Bool
  | [] => test []
  | c :: cs => test (c :: cs) || scanHas test cs

/-- `w1\s*w2\s*...` at the head of `l` (case-insensitive words). -/
def seqWs0At : List (List Char) → List Char → Bool
  | [], _ => true
  | [w], l => startsWithCI w l
  | w :: ws, l =>
    startsWithCI w l && seqWs0At ws ((l.drop w.length).dropWhile jsWs)

/-- `/w1\s*w2\s*.../i.test(text)`. -/
def seqWsCI (words : List (List Char)) (l : List Char) : Bool :=
  scanHas (seqWs0At words) l

/-- A chain `\d{n1}-\d{n2}-...-\d{nk}` at the head of `l`. -/
def digitsDashChainAt : List Nat → List Char → Bool
  | [], _ => true
  | [n], l => (grabDigits n l).isSome
  | n :: ns, l =>
    match grabDigits n l with
    | some (_, r) =>
      match r with
      | '-' :: r2 => digitsDashChainAt ns r2
      | _ => false
    | none => false

/-- Greedy optional single character (`X?` with `X` given by `p`): try the
consuming alternative first, then the empty one. -/
def optCharB (p : Char → Bool) (k : List Char → Bool) (l : List Char) : Bool :=
  match l with
  | c :: r => if p c then k r || k (c :: r) else k (c :: r)
  | [] => k []

/-- Word-bounded token `\bPAT\b` at the head (case-insensitive); the
caller checks the leading boundary. -/
def wordTokenAt (pat : List Char) (l : List Char) : Bool :=
  startsWithCI pat l &&
    (match l.drop pat.length with
     | [] => true
     | c :: _ => !isWordC c)

/-- Scan for `\bPAT\b`: the flag carries whether the previous character is
a word character. -/
def scanWordToken (pat : List Char) : Bool → List Char → Bool
  | _, [] => false
  | prevWord, c :: cs =>
    (!prevWord && wordTokenAt pat (c :: cs)) || scanWordToken pat (isWordC c) cs

/-- `/\d{4}-\d{4}-\d{4}-\d{4}/.test(text)` (no word boundaries). -/
def hasNationalIdNumber (s : String) : Bool :=
  scanHas (digitsDashChainAt [4, 4, 4, 4]) s.data

/-- `/PHILSYS/i.test(text) || /PHILIPPINE\s*NATIONAL\s*ID/i.test(text)`. -/
def hasPhilSys (s : String) : Bool :=
  containsCI "PHILSYS".data s.data ||
    seqWsCI ["PHILIPPINE".data, "NATIONAL".data, "ID".data] s.data

/-- `CRN[:\s\-]*\d{4}[\-\s]?\d{7}[\-\s]?\d` at the head of `l`. -/
def crnAt (l : List Char) : Bool :=
  startsWithCI "CRN".data l &&
    (let r := (l.drop 3).dropWhile (fun c => c = ':' || c = '-' || jsWs c)
     match grabDigits 4 r with
     | some (_, r1) =>
       optCharB (fun c => c = '-' || jsWs c)
         (fun r2 =>
           match grabDigits 7 r2 with
           | some (_, r3) =>
             optCharB (fun c => c = '-' || jsWs c)
               (fun r4 => (grabDigits 1 r4).isSome) r3
           | none => false) r1
     | none => false)

/-- `/CRN[:\s\-]*\d{4}[\-\s]?\d{7}[\-\s]?\d/i.test(text)`. -/
def hasCRN (s : String) : Bool := scanHas crnAt s.data

/-- `/\bUMID\b/i.test(text)`. -/
def hasUMIDExact (s : String) : Bool := scanWordToken "UMID".data false s.data

/-- `/REPUBLIC\s*OF\s*THE\s*PHILIPPINES/i.test(text) ||
upper.includes("REPUBLIC") && upper.includes("PHILIPPINES")`. -/
def hasRepublicPhilippines (s : String) : Bool :=
  seqWsCI ["REPUBLIC".data, "OF".data, "THE".data, "PHILIPPINES".data] s.data ||
    (containsCI "REPUBLIC".data s.data && containsCI "PHILIPPINES".data s.data)

/-- `MULTI[-\s]?PURPOSE` at the head of `l` (case-insensitive). -/
def multiPurposeAt (l : List Char) : Bool :=
  startsWithCI "MULTI".data l &&
    optCharB (fun c => c = '-' || jsWs c)
      (fun r => startsWithCI "PURPOSE".data r) (l.drop 5)

/-- `/MULTI[-\s]?PURPOSE/i.test(text) ||
(upper.includes("MULTI") && upper.includes("PURPOSE"))`. -/
def hasMultiPurpose (s : String) : Bool :=
  scanHas multiPurposeAt s.data ||
    (containsCI "MULTI".data s.data && containsCI "PURPOSE".data s.data)

/-- `/UNIFIED/i.test(text)`. -/
def hasUnified (s : String) : Bool := containsCI "UNIFIED".data s.data

/-- The UMID branch condition of `detectIdType`. -/
def umidEvidence (s : String) : Bool :=
  hasCRN s || hasUMIDExact s ||
    (hasRepublicPhilippines s && (hasMultiPurpose s || hasUnified s))

/-- `MULTI.?PURPOSE` at the head (`.` matches anything but a line break). -/
def multiDotPurposeAt (l : List Char) : Bool :=
  startsWithCI "MULTI".data l &&
    (let r := l.drop 5
     (match r with
      | c :: r2 =>
        if c ≠ '\n' ∧ c ≠ '\r' then startsWithCI "PURPOSE".data r2 else false
      | [] => false) ||
     startsWithCI "PURPOSE".data r)

/-- `DRIVER['']?S?\s*LICENSE` at the head (case-insensitive; the bracket
class in the source holds two ASCII apostrophes). -/
def driverLicenseAt (l : List Char) : Bool :=
  startsWithCI "DRIVER".data l &&
    optCharB (fun c => c = '\'')
      (fun r1 =>
        optCharB (fun c => c.toUpper = 'S')
          (fun r2 => startsWithCI "LICENSE".data (r2.dropWhile jsWs)) r1)
      (l.drop 6)

/-- `hasLTOText` of `detectIdType`. -/
def hasLTOText (s : String) : Bool :=
  seqWsCI ["LAND".data, "TRANSPORTATION".data, "OFFICE".data] s.data ||
  scanWordToken "LTO".data false s.data ||
  scanHas driverLicenseAt s.data ||
  seqWsCI ["LICENSE".data, "NO".data] s.data

/-- `[A-Z]?\d{2,3}-\d{2}-\d{6}` at the head of `l` (greedy optional
letter and greedy 2-or-3 digit first group). -/
def licenseNumberAt (l : List Char) : Bool :=
  let core := fun (l2 : List Char) =>
    digitsDashChainAt [3, 2, 6] l2 || digitsDashChainAt [2, 2, 6] l2
  match l with
  | c :: r => if c.isUpper then core r || core (c :: r) else core (c :: r)
  | [] => core []

/-- `/[A-Z]?\d{2,3}-\d{2}-\d{6}/.test(text)`. -/
def hasLicenseNumber (s : String) : Bool := scanHas licenseNumberAt s.data

/-- `/PHILHEALTH/i.test(text) || /PHILIPPINE\s*HEALTH\s*INSURANCE/i.test(text)`. -/
def hasPhilHealth (s : String) : Bool :=
  containsCI "PHILHEALTH".data s.data ||
    seqWsCI ["PHILIPPINE".data, "HEALTH".data, "INSURANCE".data] s.data

/-- `/\d{2}-\d{9}-\d/.test(text)`. -/
def hasPhilHealthNumber (s : String) : Bool :=
  scanHas (digitsDashChainAt [2, 9, 1]) s.data

/-- `/SOCIAL\s*SECURITY\s*SYSTEM/i.test(text)`. -/
def hasSSSText (s : String) : Bool :=
  seqWsCI ["SOCIAL".data, "SECURITY".data, "SYSTEM".data] s.data

/-- `/\bSSS\b/.test(upper) && !/PHILSYS|UMID|MULTI.?PURPOSE/i.test(text)`. -/
def hasSSSAbbrev (s : String) : Bool :=
  scanWordToken "SSS".data false s.data &&
    !(containsCI "PHILSYS".data s.data || containsCI "UMID".data s.data ||
      scanHas multiDotPurposeAt s.data)

/-- `/\d{2}-\d{7}-\d/.test(text)`. -/
def hasSSSNumber (s : String) : Bool :=
  scanHas (digitsDashChainAt [2, 7, 1]) s.data

/-- `DetectedIdType` (idParsers.ts). -/
structure DetectedIdType where
  idType : String
  confidence : ℚ
  matchedPatterns : List String
  deriving DecidableEq, Repr

/-- `detectIdType` (idParsers.ts): priority-ordered signature matching. -/
def detectIdType (text : String) : DetectedIdType :=
  if text = "" then ⟨"Other", 0, []⟩
  else if hasNationalIdNumber text then
    ⟨"National ID", 95/100,
      "ID: XXXX-XXXX-XXXX-XXXX" ::
        (if hasPhilSys text ||
            seqWsCI ["REPUBLIKA".data, "NG".data, "PILIPINAS".data] text.data
         then ["PhilSys / National ID"] else [])⟩
  else if umidEvidence text then
    ⟨"UMID", 95/100,
      (if hasCRN text then ["CRN-XXXX-XXXXXXX-X"] else []) ++
      (if hasUMIDExact text then ["UMID text found"] else []) ++
      (if hasRepublicPhilippines text then ["Republic of the Philippines"] else []) ++
      (if hasMultiPurpose text || hasUnified text then ["Multi-Purpose ID text"] else [])⟩
  else if hasLTOText text || hasLicenseNumber text then
    ⟨"Driver's License", 9/10,
      (if hasLTOText text then ["LTO / Driver's License"] else []) ++
      (if hasLicenseNumber text then ["ID: N##-##-######"] else [])⟩
  else if hasPhilHealth text || hasPhilHealthNumber text then
    ⟨"PhilHealth ID", 9/10,
      (if hasPhilHealth text then ["PhilHealth"] else []) ++
      (if hasPhilHealthNumber text then ["ID: ##-#########-#"] else [])⟩
  else if hasSSSText text || (hasSSSAbbrev text && hasSSSNumber text) then
    ⟨"SSS ID", 85/100,
      (if hasSSSText text then ["Social Security System"] else []) ++
      (if hasSSSNumber text then ["ID: ##-#######-#"] else [])⟩
  else if seqWsCI ["QUEZON".data, "CITY".data] text.data ||
      seqWsCI ["CITY".data, "OF".data, "MANILA".data] text.data ||
      seqWsCI ["CITY".data, "ID".data] text.data ||
      seqWsCI ["BARANGAY".data, "ID".data] text.data then
    ⟨"City ID", 8/10, ["City/Barangay ID"]⟩
  else if containsCI "UNIVERSITY".data text.data ||
      containsCI "COLLEGE".data text.data ||
      seqWsCI ["STUDENT".data, "ID".data] text.data ||
      seqWsCI ["SCHOOL".data, "ID".data] text.data then
    ⟨"School ID", 7/10, ["School/University"]⟩
  else
    ⟨"Other", 3/10, ["No patterns matched"]⟩

example : (detectIdType "REPUBLIKA NG PILIPINAS 1234-5678-9012-3456").idType
    = "National ID" := by decide
example : (detectIdType "UMID CRN-1234-5678901-2").idType = "UMID" := by decide
example : (detectIdType "LICENSE NO N12-34-567890").idType = "Driver's License" := by
  decide
example : (detectIdType "PHILHEALTH 12-345678901-2").idType = "PhilHealth ID" := by
  decide
example : (detectIdType "SSS 01-2345678-9").idType = "SSS ID" := by decide
example : (detectIdType "QUEZON CITY ID").idType = "City ID" := by decide
example : (detectIdType "STATE UNIVERSITY").idType = "School ID" := by decide
example : (detectIdType "blank paper").idType = "Other" := by decide
example : (detectIdType "").confidence = 0 := by decide

/-- **C2.** Any OCR text with UMID evidence (a CRN pattern, a standalone
`UMID` token, or `REPUBLIC OF THE PHILIPPINES` together with
`MULTI-PURPOSE`/`UNIFIED`) that does not contain a `####-####-####-####`
national-id pattern classifies as `UMID` with confidence `0.95` — the UMID
check runs before every SSS heuristic. -/
theorem detectIdType_umid_claims (s : String)
    (h1 : hasNationalIdNumber s = false) (h2 : umidEvidence s = true) :
    (detectIdType s).idType = "UMID" ∧ (detectIdType s).confidence = 95/100 := by
  have h0 : s ≠ "" := by
    rintro rfl
    exact absurd h2 (by decide)
  rw [detectIdType, if_neg h0, h1, h2]
  simp

/-- Witness for C2 at a text carrying both SSS evidence (a standalone
`SSS` token and an `##-#######-#` number) and a valid CRN pattern: it
classifies as `UMID`, not `SSS ID`. -/
theorem detectIdType_umid_claims_witness :
    hasNationalIdNumber "SSS 01-2345678-9 CRN-1234-5678901-2" = false ∧
    hasCRN "SSS 01-2345678-9 CRN-1234-5678901-2" = true ∧
    hasSSSAbbrev "SSS 01-2345678-9 CRN-1234-5678901-2" = true ∧
    hasSSSNumber "SSS 01-2345678-9 CRN-1234-5678901-2" = true ∧
    (detectIdType "SSS 01-2345678-9 CRN-1234-5678901-2").idType = "UMID" ∧
    (detectIdType "SSS 01-2345678-9 CRN-1234-5678901-2").idType ≠ "SSS ID" ∧
    (detectIdType "SSS 01-2345678-9 CRN-1234-5678901-2").confidence = 95/100 := by
  have h := detectIdType_umid_claims "SSS 01-2345678-9 CRN-1234-5678901-2"
    (by decide) (by decide)
  exact ⟨by decide, by decide, by decide, by decide, h.1,
    by rw [h.1]; decide, h.2⟩

/-! ## Multipass OCR scoring (OcrController.java lines 356-382)

```java
private OcrResult runOcr(BufferedImage image, String method) {
  try { String text = tesseract.doOCR(image);
        return new OcrResult(text, method, scoreResult(text)); }
  catch (Exception e) { return new OcrResult("", method, 0); }
}
private int scoreResult(String text) {
  if (text == null || text.isEmpty()) return 0;
  long alphaNum = ...isLetterOrDigit...;
  long garbage  = ...!isLetterOrDigit && !isWhitespace && c != '-' && c != '/'...;
  return (int)(alphaNum - garbage * 2);
}
private OcrResult selectBest(List<OcrResult> results) {
  return results.stream().max(Comparator.comparingInt(r -> r.score))
                .orElse(results.get(0));
}
```
The OCR engine call is abstracted as an `Option String` (`none` = the call
threw).  `Character.isLetterOrDigit`/`isWhitespace` are modelled on the
ASCII range the OCR texts live in. -/

/-- `OcrResult` (OcrController.java). -/
structure OcrResult where
  text : String
  method : String
  score : Int
  deriving DecidableEq, Repr

/-- Java `Character.isLetterOrDigit` on ASCII. -/
def isLetterOrDigit (c : Char) : Bool := c.isAlphanum

/-- A garbage character: not alphanumeric, not whitespace, not `-`, not `/`. -/
def isGarbageChar (c : Char) : Bool :=
  !isLetterOrDigit c && !jsWs c && c ≠ '-' && c ≠ '/'

/-- `scoreResult` (OcrController.java). -/
def scoreResult (text : String) : Int :=
  if text.isEmpty then 0
  else
    (text.data.countP isLetterOrDigit : Int) -
      (text.data.countP isGarbageChar : Int) * 2

/-- `runOcr` (OcrController.java): a throwing OCR call contributes empty
text with score 0 instead of propagating. -/
def runOcr (ocrOutcome : Option String) (method : String) : OcrResult :=
  match ocrOutcome with
  | some text => ⟨text, method, scoreResult text⟩
  | none => ⟨"", method, 0⟩

/-- `Stream.max(comparingInt)` over a non-empty list: the reduction keeps
the earlier element on ties, so the first maximal score wins. -/
def selectBest (r : OcrResult) (rs : List OcrResult) : OcrResult :=
  rs.foldl (fun best x => if x.score > best.score then x else best) r

theorem selectBest_fold (rs : List OcrResult) :
    ∀ b : OcrResult,
      (selectBest b rs = b ∧ ∀ x ∈ rs, x.score ≤ b.score) ∨
      (b.score < (selectBest b rs).score ∧
        ∃ pre post, rs = pre ++ (selectBest b rs) :: post ∧
          (∀ x ∈ rs, x.score ≤ (selectBest b rs).score) ∧
          (∀ y ∈ pre, y.score < (selectBest b rs).score)) := by
  induction rs with
  | nil => intro b; left; exact ⟨rfl, by simp⟩
  | cons x xs ih =>
    intro b
    have hstep : selectBest b (x :: xs) =
        selectBest (if x.score > b.score then x else b) xs := rfl
    by_cases hx : x.score > b.score
    · rw [hstep, if_pos hx]
      rcases ih x with ⟨h1, h2⟩ | ⟨h1, pre, post, h2, h3, h4⟩
      · right
        rw [h1]
        refine ⟨hx, [], xs, by simp, ?_, by simp⟩
        intro z hz
        rcases List.mem_cons.mp hz with rfl | hz
        · exact le_refl _
        · exact h2 z hz
      · right
        refine ⟨lt_trans hx h1, x :: pre, post, ?_, ?_, ?_⟩
        · rw [List.cons_append, ← h2]
        · intro z hz
          rcases List.mem_cons.mp hz with rfl | hz
          · exact le_of_lt h1
          · exact h3 z hz
        · intro y hy
          rcases List.mem_cons.mp hy with rfl | hy
          · exact h1
          · exact h4 y hy
    · rw [hstep, if_neg hx]
      push_neg at hx
      rcases ih b with ⟨h1, h2⟩ | ⟨h1, pre, post, h2, h3, h4⟩
      · left
        refine ⟨h1, ?_⟩
        intro z hz
        rcases List.mem_cons.mp hz with rfl | hz
        · exact hx
        · exact h2 z hz
      · right
        refine ⟨h1, x :: pre, post, ?_, ?_, ?_⟩
        · rw [List.cons_append, ← h2]
        · intro z hz
          rcases List.mem_cons.mp hz with rfl | hz
          · exact le_trans hx (le_of_lt h1)
          · exact h3 z hz
        · intro y hy
          rcases List.mem_cons.mp hy with rfl | hy
          · exact lt_of_le_of_lt hx h1
          · exact h4 y hy

/-- **C6.** `scoreResult` equals the count of alphanumeric characters minus
twice the count of garbage characters (with empty text scoring 0, the same
value the formula gives); `selectBest` returns the pass with the highest
score, resolving ties to the first enumerated variant (every element before
the winner scores strictly less, every element at all scores no more); and
a pass whose OCR call throws contributes empty text with score 0. -/
theorem multipass_scoring_claims :
    (∀ text : String,
      scoreResult text =
        (text.data.countP isLetterOrDigit : Int) -
          2 * (text.data.countP isGarbageChar : Int)) ∧
    (∀ (r : OcrResult) (rs : List OcrResult),
      selectBest r rs ∈ r :: rs ∧
      (∀ x ∈ r :: rs, x.score ≤ (selectBest r rs).score) ∧
      ∃ pre post, r :: rs = pre ++ (selectBest r rs) :: post ∧
        ∀ y ∈ pre, y.score < (selectBest r rs).score) ∧
    (∀ method : String, runOcr none method = ⟨"", method, 0⟩) ∧
    scoreResult "ABCD1234" = 8 ∧ scoreResult "A!@#1" = -4 := by
  refine ⟨?_, ?_, fun _ => rfl, by decide, by decide⟩
  · intro text
    rw [scoreResult]
    split_ifs with h
    · rw [String.isEmpty_iff] at h
      subst h
      decide
    · ring
  · intro r rs
    rcases selectBest_fold rs r with ⟨h1, h2⟩ | ⟨h1, pre, post, h2, h3, h4⟩
    · rw [h1]
      refine ⟨List.mem_cons_self _ _, ?_, [], rs, by simp, by simp⟩
      intro x hx
      rcases List.mem_cons.mp hx with rfl | hx
      · exact le_refl _
      · exact h2 x hx
    · obtain ⟨S, hS⟩ : ∃ S, selectBest r rs = S := ⟨_, rfl⟩
      rw [hS] at h1 h2 h3 h4 ⊢
      have hmem : S ∈ rs := by
        rw [h2]
        exact List.mem_append_right pre (List.mem_cons_self _ _)
      refine ⟨List.mem_cons_of_mem _ hmem, ?_, r :: pre, post, ?_, ?_⟩
      · intro x hx
        rcases List.mem_cons.mp hx with rfl | hx
        · exact le_of_lt h1
        · exact h3 x hx
      · rw [List.cons_append, ← h2]
      · intro y hy
        rcases List.mem_cons.mp hy with rfl | hy
        · exact h1
        · exact h4 y hy

/-! ## Card cropping (cardCropper.ts)

The OpenCV stages are abstracted at the decision level: the contour loop
receives the list of approximated polygons (vertex count `approx.rows` and
`cv.contourArea`, a double modelled as a rational); `none` as the contour
list models the `catch` branch (any OpenCV error).  `warped` stands for the
data URL produced by the perspective warp. -/

/-- An approximated contour: `approx.rows` and its `contourArea`. -/
structure Contour where
  vertices : Nat
  area : ℚ
  deriving DecidableEq, Repr

/-- `CropResult` (cardCropper.ts). -/
structure CropResult where
  success : Bool
  dataUrl : Option String
  reason : Option String
  deriving DecidableEq, Repr

/-- The contour-selection loop (cardCropper.ts lines 130-152):
`cardContour`/`maxArea` are updated for each 4-vertex polygon whose area
strictly exceeds the running maximum (initially `null`/0). -/
def selectLoop : Option Contour × ℚ → List Contour → Option Contour × ℚ
  | st, [] => st
  | (best, maxArea), c :: cs =>
    if c.vertices = 4 ∧ maxArea < c.area then selectLoop (some c, c.area) cs
    else selectLoop (best, maxArea) cs

/-- `cropIdCardFromDataUrl` at the decision level (lines 161-221): a
missing or sub-threshold contour, or an OpenCV error, yields
`success=false` with a reason; otherwise the warped card is returned. -/
def cropIdCard (contoursOpt : Option (List Contour)) (warped orig : String) :
    CropResult :=
  match contoursOpt with
  | none => ⟨false, none, some "OpenCV error, using original image"⟩
  | some cs =>
    let st := selectLoop (none, 0) cs
    if st.1 = none ∨ st.2 < 3000 then
      ⟨false, none, some "Card contour not found - using original image"⟩
    else ⟨true, some warped, none⟩

/-- The caller (ScanIdPage.tsx line 227):
`cropResult.success && cropResult.dataUrl ? cropResult.dataUrl : dataUrl`. -/
def chooseFinalDataUrl (r : CropResult) (orig : String) : String :=
  match r with
  | ⟨true, some u, _⟩ => u
  | _ => orig

theorem selectLoop_ge {cs : List Contour} :
    ∀ b m, 3000 ≤ (selectLoop (b, m) cs).2 ↔
      3000 ≤ m ∨ ∃ c ∈ cs, c.vertices = 4 ∧ 3000 ≤ c.area := by
  induction cs with
  | nil => intro b m; simp [selectLoop]
  | cons c cs ih =>
    intro b m
    rw [selectLoop]
    split_ifs with hc
    · rw [ih]
      constructor
      · rintro (h | h)
        · exact Or.inr ⟨c, List.mem_cons_self _ _, hc.1, h⟩
        · obtain ⟨x, hx, h4, ha⟩ := h
          exact Or.inr ⟨x, List.mem_cons_of_mem _ hx, h4, ha⟩
      · rintro (h | ⟨x, hx, h4, ha⟩)
        · exact Or.inl (le_of_lt (lt_of_le_of_lt h hc.2))
        · rcases List.mem_cons.mp hx with rfl | hx
          · exact Or.inl ha
          · exact Or.inr ⟨x, hx, h4, ha⟩
    · rw [ih]
      constructor
      · rintro (h | ⟨x, hx, h4, ha⟩)
        · exact Or.inl h
        · exact Or.inr ⟨x, List.mem_cons_of_mem _ hx, h4, ha⟩
      · rintro (h | ⟨x, hx, h4, ha⟩)
        · exact Or.inl h
        · rcases List.mem_cons.mp hx with rfl | hx
          · rcases not_and_or.mp hc with h5 | h5
            · exact absurd h4 h5
            · exact Or.inl (le_trans ha (le_of_not_lt h5))
          · exact Or.inr ⟨x, hx, h4, ha⟩

theorem selectLoop_none {cs : List Contour} :
    ∀ b m, (selectLoop (b, m) cs).1 = none →
      (selectLoop (b, m) cs).2 = m ∧ b = none := by
  induction cs with
  | nil => intro b m h; exact ⟨rfl, h⟩
  | cons c cs ih =>
    intro b m h
    rw [selectLoop] at h ⊢
    split_ifs at h ⊢ with hc
    · exact absurd (ih _ _ h).2 (by simp)
    · exact ih _ _ h

/-- **C7 (amended).** When the contour list holds no 4-vertex contour of
area at least 3000 (the loop keeps strict improvements over `maxArea = 0`
and then requires `maxArea < 3000` to fail), or any OpenCV error occurs,
`cropIdCardFromDataUrl` returns `success=false` with a reason string, and
the caller proceeds with the original un-rectified photo; conversely a
4-vertex contour of area at least 3000 yields success.  (The original
claim's strict "exceeds 3000" is refuted at area exactly 3000.) -/
theorem cropIdCard_claims :
    (∀ (cs : List Contour) (warped orig : String),
      ((¬ ∃ c ∈ cs, c.vertices = 4 ∧ 3000 ≤ c.area) →
        (cropIdCard (some cs) warped orig).success = false ∧
        (cropIdCard (some cs) warped orig).reason.isSome = true ∧
        chooseFinalDataUrl (cropIdCard (some cs) warped orig) orig = orig) ∧
      ((∃ c ∈ cs, c.vertices = 4 ∧ 3000 ≤ c.area) →
        (cropIdCard (some cs) warped orig).success = true ∧
        chooseFinalDataUrl (cropIdCard (some cs) warped orig) orig = warped)) ∧
    (∀ warped orig : String,
      (cropIdCard none warped orig).success = false ∧
      (cropIdCard none warped orig).reason.isSome = true ∧
      chooseFinalDataUrl (cropIdCard none warped orig) orig = orig) := by
  refine ⟨?_, fun warped orig => ⟨rfl, rfl, rfl⟩⟩
  intro cs warped orig
  constructor
  · intro h
    have hlt : (selectLoop (none, 0) cs).2 < 3000 := by
      by_contra hge
      push_neg at hge
      rcases (selectLoop_ge none 0).mp hge with h2 | h2
      · norm_num at h2
      · exact h h2
    rw [cropIdCard]
    rw [if_pos (Or.inr hlt)]
    exact ⟨rfl, rfl, rfl⟩
  · intro h
    have hge : 3000 ≤ (selectLoop (none, 0) cs).2 :=
      (selectLoop_ge none 0).mpr (Or.inr h)
    have hsome : (selectLoop (none, 0) cs).1 ≠ none := by
      intro hn
      have := (selectLoop_none none 0 hn).1
      rw [this] at hge
      norm_num at hge
    rw [cropIdCard]
    rw [if_neg]
    · exact ⟨rfl, rfl⟩
    · rintro (h2 | h2)
      · exact hsome h2
      · exact absurd hge (not_le.mpr h2)

/-- Witness for C7: an empty contour list fails and the caller keeps the
original image; a single 4-vertex contour of area 5000 succeeds. -/
theorem cropIdCard_claims_witness :
    ((cropIdCard (some []) "warped" "orig").success = false ∧
      chooseFinalDataUrl (cropIdCard (some []) "warped" "orig") "orig" = "orig") ∧
    ((cropIdCard (some [⟨4, 5000⟩]) "warped" "orig").success = true ∧
      chooseFinalDataUrl (cropIdCard (some [⟨4, 5000⟩]) "warped" "orig") "orig"
        = "warped") :=
  ⟨⟨((cropIdCard_claims.1 [] "warped" "orig").1 (by simp)).1,
    ((cropIdCard_claims.1 [] "warped" "orig").1 (by simp)).2.2⟩,
   ⟨((cropIdCard_claims.1 [⟨4, 5000⟩] "warped" "orig").2
      ⟨⟨4, 5000⟩, List.mem_cons_self _ _, rfl, by norm_num⟩).1,
    ((cropIdCard_claims.1 [⟨4, 5000⟩] "warped" "orig").2
      ⟨⟨4, 5000⟩, List.mem_cons_self _ _, rfl, by norm_num⟩).2⟩⟩

/-- **C7 (counterexample).** At a single 4-vertex contour of area exactly
3000 no contour *exceeds* the threshold, yet the code succeeds (the failure
test is `maxArea < 3000`), so the claim's strict reading is false. -/
theorem cropIdCard_threshold_counterexample :
    (∀ c ∈ [(⟨4, 3000⟩ : Contour)], ¬(c.vertices = 4 ∧ 3000 < c.area)) ∧
    (cropIdCard (some [⟨4, 3000⟩]) "warped" "orig").success = true ∧
    chooseFinalDataUrl (cropIdCard (some [⟨4, 3000⟩]) "warped" "orig") "orig"
      = "warped" := by
  refine ⟨?_, by decide, by decide⟩
  intro c hc
  rcases List.mem_cons.mp hc with rfl | hc
  · rintro ⟨_, h⟩
    exact absurd h (by decide)
  · simp at hc

/-! ## `orderPoints` (cardCropper.ts lines 38-72)

```ts
const sum  = points.map((p) => p.x + p.y);
const diff = points.map((p) => p.x - p.y);
const tlIndex = sum.indexOf(Math.min(...sum));
const brIndex = sum.indexOf(Math.max(...sum));
const trIndex = diff.indexOf(Math.min(...diff));
const blIndex = diff.indexOf(Math.max(...diff));
```
`indexOf` returns the first index holding the extremal value.  Float
coordinates are modelled as rationals. -/

/-- A 2-D point. -/
structure Pt where
  x : ℚ
  y : ℚ
  deriving DecidableEq, Repr

/-- The corner assignment produced by `orderPoints`. -/
structure OrderedQuad where
  tl : Pt
  tr : Pt
  br : Pt
  bl : Pt
  deriving DecidableEq, Repr

def ptSum (p : Pt) : ℚ := p.x + p.y

def ptDiff (p : Pt) : ℚ := p.x - p.y

/-- `Math.min(...[a,b,c,d])`. -/
def min4 (a b c d : ℚ) : ℚ := min (min (min a b) c) d

/-- `Math.max(...[a,b,c,d])`. -/
def max4 (a b c d : ℚ) : ℚ := max (max (max a b) c) d

/-- `array.indexOf(Math.min(...array))`: the first index holding the
minimum. -/
def idxOfMin4 (a b c d : ℚ) : Fin 4 :=
  if a = min4 a b c d then 0
  else if b = min4 a b c d then 1
  else if c = min4 a b c d then 2
  else 3

/-- `array.indexOf(Math.max(...array))`. -/
def idxOfMax4 (a b c d : ℚ) : Fin 4 :=
  if a = max4 a b c d then 0
  else if b = max4 a b c d then 1
  else if c = max4 a b c d then 2
  else 3

/-- `orderPoints` (cardCropper.ts): top-left = first index minimising
`x+y`, bottom-right = first index maximising `x+y`, top-right = first index
minimising `x−y`, bottom-left = first index maximising `x−y`. -/
def orderPoints (p : Fin 4 → Pt) : OrderedQuad :=
  { tl := p (idxOfMin4 (ptSum (p 0)) (ptSum (p 1)) (ptSum (p 2)) (ptSum (p 3)))
    tr := p (idxOfMin4 (ptDiff (p 0)) (ptDiff (p 1)) (ptDiff (p 2)) (ptDiff (p 3)))
    br := p (idxOfMax4 (ptSum (p 0)) (ptSum (p 1)) (ptSum (p 2)) (ptSum (p 3)))
    bl := p (idxOfMax4 (ptDiff (p 0)) (ptDiff (p 1)) (ptDiff (p 2)) (ptDiff (p 3))) }

theorem min4_le (a b c d : ℚ) :
    min4 a b c d ≤ a ∧ min4 a b c d ≤ b ∧ min4 a b c d ≤ c ∧ min4 a b c d ≤ d := by
  refine ⟨?_, ?_, ?_, min_le_right _ _⟩
  · exact le_trans (min_le_left _ _) (le_trans (min_le_left _ _) (min_le_left _ _))
  · exact le_trans (min_le_left _ _) (le_trans (min_le_left _ _) (min_le_right _ _))
  · exact le_trans (min_le_left _ _) (min_le_right _ _)

theorem le_max4 (a b c d : ℚ) :
    a ≤ max4 a b c d ∧ b ≤ max4 a b c d ∧ c ≤ max4 a b c d ∧ d ≤ max4 a b c d := by
  refine ⟨?_, ?_, ?_, le_max_right _ _⟩
  · exact le_trans (le_trans (le_max_left _ _) (le_max_left _ _)) (le_max_left _ _)
  · exact le_trans (le_trans (le_max_right _ _) (le_max_left _ _)) (le_max_left _ _)
  · exact le_trans (le_max_right _ _) (le_max_left _ _)

theorem min4_mem (a b c d : ℚ) :
    min4 a b c d = a ∨ min4 a b c d = b ∨ min4 a b c d = c ∨ min4 a b c d = d := by
  rw [min4]
  rcases min_choice (min (min a b) c) d with h | h
  · rw [h]
    rcases min_choice (min a b) c with h2 | h2
    · rw [h2]
      rcases min_choice a b with h3 | h3
      · exact Or.inl h3
      · exact Or.inr (Or.inl h3)
    · exact Or.inr (Or.inr (Or.inl h2))
  · exact Or.inr (Or.inr (Or.inr h))

theorem max4_mem (a b c d : ℚ) :
    max4 a b c d = a ∨ max4 a b c d = b ∨ max4 a b c d = c ∨ max4 a b c d = d := by
  rw [max4]
  rcases max_choice (max (max a b) c) d with h | h
  · rw [h]
    rcases max_choice (max a b) c with h2 | h2
    · rw [h2]
      rcases max_choice a b with h3 | h3
      · exact Or.inl h3
      · exact Or.inr (Or.inl h3)
    · exact Or.inr (Or.inr (Or.inl h2))
  · exact Or.inr (Or.inr (Or.inr h))

theorem idxOfMin4_le (v : Fin 4 → ℚ) (j : Fin 4) :
    v (idxOfMin4 (v 0) (v 1) (v 2) (v 3)) ≤ v j := by
  obtain ⟨h0, h1, h2, h3⟩ := min4_le (v 0) (v 1) (v 2) (v 3)
  have hall : ∀ i : Fin 4, min4 (v 0) (v 1) (v 2) (v 3) ≤ v i := by
    intro i; fin_cases i <;> assumption
  rw [idxOfMin4]
  split_ifs with e0 e1 e2
  · exact e0 ▸ hall j
  · exact e1 ▸ hall j
  · exact e2 ▸ hall j
  · rcases min4_mem (v 0) (v 1) (v 2) (v 3) with h | h | h | h
    · exact absurd h.symm e0
    · exact absurd h.symm e1
    · exact absurd h.symm e2
    · exact h ▸ hall j

theorem le_idxOfMax4 (v : Fin 4 → ℚ) (j : Fin 4) :
    v j ≤ v (idxOfMax4 (v 0) (v 1) (v 2) (v 3)) := by
  obtain ⟨h0, h1, h2, h3⟩ := le_max4 (v 0) (v 1) (v 2) (v 3)
  have hall : ∀ i : Fin 4, v i ≤ max4 (v 0) (v 1) (v 2) (v 3) := by
    intro i; fin_cases i <;> assumption
  rw [idxOfMax4]
  split_ifs with e0 e1 e2
  · exact e0 ▸ hall j
  · exact e1 ▸ hall j
  · exact e2 ▸ hall j
  · rcases max4_mem (v 0) (v 1) (v 2) (v 3) with h | h | h | h
    · exact absurd h.symm e0
    · exact absurd h.symm e1
    · exact absurd h.symm e2
    · exact h ▸ hall j

theorem fin4_cases (i : Fin 4) : i = 0 ∨ i = 1 ∨ i = 2 ∨ i = 3 := by
  rcases i with ⟨iv, hiv⟩
  interval_cases iv
  · exact Or.inl rfl
  · exact Or.inr (Or.inl rfl)
  · exact Or.inr (Or.inr (Or.inl rfl))
  · exact Or.inr (Or.inr (Or.inr rfl))

theorem idxOfMin4_eq (v : Fin 4 → ℚ) (i : Fin 4)
    (h : ∀ j, j ≠ i → v i < v j) :
    idxOfMin4 (v 0) (v 1) (v 2) (v 3) = i := by
  have hle : ∀ j, v i ≤ v j := by
    intro j
    by_cases hj : j = i
    · rw [hj]
    · exact le_of_lt (h j hj)
  have hge : v i ≤ min4 (v 0) (v 1) (v 2) (v 3) := by
    rw [min4]
    exact le_min (le_min (le_min (hle 0) (hle 1)) (hle 2)) (hle 3)
  have hm := min4_le (v 0) (v 1) (v 2) (v 3)
  rcases fin4_cases i with rfl | rfl | rfl | rfl
  · rw [idxOfMin4, le_antisymm hm.1 hge, if_pos rfl]
  · rw [idxOfMin4, le_antisymm hm.2.1 hge,
      if_neg (ne_of_gt (h 0 (by decide))), if_pos rfl]
  · rw [idxOfMin4, le_antisymm hm.2.2.1 hge,
      if_neg (ne_of_gt (h 0 (by decide))),
      if_neg (ne_of_gt (h 1 (by decide))), if_pos rfl]
  · rw [idxOfMin4, le_antisymm hm.2.2.2 hge,
      if_neg (ne_of_gt (h 0 (by decide))),
      if_neg (ne_of_gt (h 1 (by decide))),
      if_neg (ne_of_gt (h 2 (by decide)))]

theorem idxOfMax4_eq (v : Fin 4 → ℚ) (i : Fin 4)
    (h : ∀ j, j ≠ i → v j < v i) :
    idxOfMax4 (v 0) (v 1) (v 2) (v 3) = i := by
  have hle : ∀ j, v j ≤ v i := by
    intro j
    by_cases hj : j = i
    · rw [hj]
    · exact le_of_lt (h j hj)
  have hge : max4 (v 0) (v 1) (v 2) (v 3) ≤ v i := by
    rw [max4]
    exact max_le (max_le (max_le (hle 0) (hle 1)) (hle 2)) (hle 3)
  have hm := le_max4 (v 0) (v 1) (v 2) (v 3)
  rcases fin4_cases i with rfl | rfl | rfl | rfl
  · rw [idxOfMax4, le_antisymm hge hm.1, if_pos rfl]
  · rw [idxOfMax4, le_antisymm hge hm.2.1,
      if_neg (ne_of_lt (h 0 (by decide))), if_pos rfl]
  · rw [idxOfMax4, le_antisymm hge hm.2.2.1,
      if_neg (ne_of_lt (h 0 (by decide))),
      if_neg (ne_of_lt (h 1 (by decide))), if_pos rfl]
  · rw [idxOfMax4, le_antisymm hge hm.2.2.2,
      if_neg (ne_of_lt (h 0 (by decide))),
      if_neg (ne_of_lt (h 1 (by decide))),
      if_neg (ne_of_lt (h 2 (by decide)))]

theorem idxMin_comp (v : Fin 4 → ℚ) (σ : Equiv.Perm (Fin 4))
    (hv : ∀ i j, i ≠ j → v i ≠ v j) :
    σ (idxOfMin4 (v (σ 0)) (v (σ 1)) (v (σ 2)) (v (σ 3))) =
      idxOfMin4 (v 0) (v 1) (v 2) (v 3) := by
  obtain ⟨i, hi⟩ : ∃ i : Fin 4, ∀ j, v i ≤ v j :=
    ⟨idxOfMin4 (v 0) (v 1) (v 2) (v 3), idxOfMin4_le v⟩
  have hstrict : ∀ j, j ≠ i → v i < v j := fun j hj =>
    lt_of_le_of_ne (hi j) (hv i j (Ne.symm hj))
  have hR : idxOfMin4 (v 0) (v 1) (v 2) (v 3) = i := idxOfMin4_eq v i hstrict
  have hL : idxOfMin4 (v (σ 0)) (v (σ 1)) (v (σ 2)) (v (σ 3)) = σ.symm i := by
    refine idxOfMin4_eq (fun k => v (σ k)) (σ.symm i) ?_
    intro j hj
    have h1 : σ j ≠ i := by
      intro e
      apply hj
      rw [← e, Equiv.symm_apply_apply]
    have h2 : v i < v (σ j) := hstrict (σ j) h1
    simpa [Equiv.apply_symm_apply] using h2
  rw [hL, hR, Equiv.apply_symm_apply]

theorem idxMax_comp (v : Fin 4 → ℚ) (σ : Equiv.Perm (Fin 4))
    (hv : ∀ i j, i ≠ j → v i ≠ v j) :
    σ (idxOfMax4 (v (σ 0)) (v (σ 1)) (v (σ 2)) (v (σ 3))) =
      idxOfMax4 (v 0) (v 1) (v 2) (v 3) := by
  obtain ⟨i, hi⟩ : ∃ i : Fin 4, ∀ j, v j ≤ v i :=
    ⟨idxOfMax4 (v 0) (v 1) (v 2) (v 3), le_idxOfMax4 v⟩
  have hstrict : ∀ j, j ≠ i → v j < v i := fun j hj =>
    lt_of_le_of_ne (hi j) (hv j i hj)
  have hR : idxOfMax4 (v 0) (v 1) (v 2) (v 3) = i := idxOfMax4_eq v i hstrict
  have hL : idxOfMax4 (v (σ 0)) (v (σ 1)) (v (σ 2)) (v (σ 3)) = σ.symm i := by
    refine idxOfMax4_eq (fun k => v (σ k)) (σ.symm i) ?_
    intro j hj
    have h1 : σ j ≠ i := by
      intro e
      apply hj
      rw [← e, Equiv.symm_apply_apply]
    have h2 : v (σ j) < v i := hstrict (σ j) h1
    simpa [Equiv.apply_symm_apply] using h2
  rw [hL, hR, Equiv.apply_symm_apply]

/-- **C8 (amended).** `orderPoints` always returns four input points with
`tl` attaining the minimal `x+y`, `br` the maximal `x+y`, `tr` the minimal
`x−y` and `bl` the maximal `x−y`; and it is invariant under permutations of
the four input points *provided* the corner sums `x+y` are pairwise
distinct and the corner differences `x−y` are pairwise distinct (so each
extremum is uniquely attained — ties are resolved by input position, which
permutations change). -/
theorem orderPoints_claims :
    (∀ p : Fin 4 → Pt,
      (∃ k, (orderPoints p).tl = p k) ∧ (∃ k, (orderPoints p).tr = p k) ∧
      (∃ k, (orderPoints p).br = p k) ∧ (∃ k, (orderPoints p).bl = p k) ∧
      (∀ i, ptSum ((orderPoints p).tl) ≤ ptSum (p i)) ∧
      (∀ i, ptSum (p i) ≤ ptSum ((orderPoints p).br)) ∧
      (∀ i, ptDiff ((orderPoints p).tr) ≤ ptDiff (p i)) ∧
      (∀ i, ptDiff (p i) ≤ ptDiff ((orderPoints p).bl))) ∧
    (∀ (p : Fin 4 → Pt) (σ : Equiv.Perm (Fin 4)),
      (∀ i j, i ≠ j → ptSum (p i) ≠ ptSum (p j)) →
      (∀ i j, i ≠ j → ptDiff (p i) ≠ ptDiff (p j)) →
      orderPoints (fun k => p (σ k)) = orderPoints p) := by
  constructor
  · intro p
    exact ⟨⟨_, rfl⟩, ⟨_, rfl⟩, ⟨_, rfl⟩, ⟨_, rfl⟩,
      fun i => idxOfMin4_le (fun k => ptSum (p k)) i,
      fun i => le_idxOfMax4 (fun k => ptSum (p k)) i,
      fun i => idxOfMin4_le (fun k => ptDiff (p k)) i,
      fun i => le_idxOfMax4 (fun k => ptDiff (p k)) i⟩
  · intro p σ hsum hdiff
    rw [orderPoints, orderPoints]
    have h1 := idxMin_comp (fun k => ptSum (p k)) σ hsum
    have h2 := idxMin_comp (fun k => ptDiff (p k)) σ hdiff
    have h3 := idxMax_comp (fun k => ptSum (p k)) σ hsum
    have h4 := idxMax_comp (fun k => ptDiff (p k)) σ hdiff
    congr 1
    · exact congrArg p h1
    · exact congrArg p h2
    · exact congrArg p h3
    · exact congrArg p h4

/-- Four points with pairwise distinct corner sums and differences. -/
def wPts : Fin 4 → Pt := fun i =>
  if i.val = 0 then ⟨0, 0⟩
  else if i.val = 1 then ⟨10, 1⟩
  else if i.val = 2 then ⟨3, 7⟩
  else ⟨9, 12⟩

theorem wPts_sum_ne : ∀ i j : Fin 4, i ≠ j → ptSum (wPts i) ≠ ptSum (wPts j) := by
  intro i j hij
  fin_cases i <;> fin_cases j <;>
    first
      | exact absurd rfl hij
      | norm_num [wPts, ptSum]

theorem wPts_diff_ne : ∀ i j : Fin 4, i ≠ j → ptDiff (wPts i) ≠ ptDiff (wPts j) := by
  intro i j hij
  fin_cases i <;> fin_cases j <;>
    first
      | exact absurd rfl hij
      | norm_num [wPts, ptDiff]

/-- Witness for C8's permutation invariance at four points with pairwise
distinct corner sums and differences, permuted by a transposition. -/
theorem orderPoints_claims_witness :
    (∀ i j : Fin 4, i ≠ j →
      ptSum (wPts i) ≠ ptSum (wPts j)) ∧
    (∀ i j : Fin 4, i ≠ j →
      ptDiff (wPts i) ≠ ptDiff (wPts j)) ∧
    orderPoints (fun k => wPts (Equiv.swap 0 1 k)) = orderPoints wPts :=
  ⟨wPts_sum_ne, wPts_diff_ne,
    orderPoints_claims.2 wPts (Equiv.swap 0 1) wPts_sum_ne wPts_diff_ne⟩

/-- The points of the C8 counterexample: `(0,2)` and `(2,0)` are distinct
but share the corner sum `x+y = 2`. -/
def cexP : Fin 4 → Pt := fun i =>
  if i.val = 0 then ⟨0, 2⟩
  else if i.val = 1 then ⟨2, 0⟩
  else if i.val = 2 then ⟨5, 5⟩
  else ⟨6, 6⟩

/-- `cexP` with its first two points transposed. -/
def cexQ : Fin 4 → Pt := fun i =>
  if i.val = 0 then ⟨2, 0⟩
  else if i.val = 1 then ⟨0, 2⟩
  else if i.val = 2 then ⟨5, 5⟩
  else ⟨6, 6⟩

/-- The transposition of indices 0 and 1. -/
def swapIdx : Fin 4 → Fin 4 := fun i =>
  if i.val = 0 then 1 else if i.val = 1 then 0 else i

/-- **C8 (counterexample).** Four pairwise distinct points whose `x+y`
values tie: transposing the first two inputs changes the `indexOf`-based
corner assignment, so permutation invariance fails for distinct points in
general. -/
theorem orderPoints_perm_counterexample :
    (∀ i : Fin 4, cexQ i = cexP (swapIdx i)) ∧
    (∀ i j : Fin 4, i ≠ j → cexP i ≠ cexP j) ∧
    orderPoints cexQ ≠ orderPoints cexP := by
  refine ⟨by decide, by decide, ?_⟩
  have hmin : min4 (2 : ℚ) 2 10 12 = 2 := by
    rw [min4, min_self, min_eq_left (by norm_num : (2:ℚ) ≤ 10),
      min_eq_left (by norm_num : (2:ℚ) ≤ 12)]
  have hidx : idxOfMin4 (2 : ℚ) 2 10 12 = 0 := by
    rw [idxOfMin4, hmin, if_pos rfl]
  have s0 : ptSum (cexP 0) = 2 := by show ptSum ⟨0, 2⟩ = 2; norm_num [ptSum]
  have s1 : ptSum (cexP 1) = 2 := by show ptSum ⟨2, 0⟩ = 2; norm_num [ptSum]
  have s2 : ptSum (cexP 2) = 10 := by show ptSum ⟨5, 5⟩ = 10; norm_num [ptSum]
  have s3 : ptSum (cexP 3) = 12 := by show ptSum ⟨6, 6⟩ = 12; norm_num [ptSum]
  have t0 : ptSum (cexQ 0) = 2 := by show ptSum ⟨2, 0⟩ = 2; norm_num [ptSum]
  have t1 : ptSum (cexQ 1) = 2 := by show ptSum ⟨0, 2⟩ = 2; norm_num [ptSum]
  have t2 : ptSum (cexQ 2) = 10 := by show ptSum ⟨5, 5⟩ = 10; norm_num [ptSum]
  have t3 : ptSum (cexQ 3) = 12 := by show ptSum ⟨6, 6⟩ = 12; norm_num [ptSum]
  have hP : (orderPoints cexP).tl = ⟨0, 2⟩ := by
    show cexP (idxOfMin4 (ptSum (cexP 0)) (ptSum (cexP 1)) (ptSum (cexP 2))
      (ptSum (cexP 3))) = ⟨0, 2⟩
    rw [s0, s1, s2, s3, hidx]
    rfl
  have hQ : (orderPoints cexQ).tl = ⟨2, 0⟩ := by
    show cexQ (idxOfMin4 (ptSum (cexQ 0)) (ptSum (cexQ 1)) (ptSum (cexQ 2))
      (ptSum (cexQ 3))) = ⟨2, 0⟩
    rw [t0, t1, t2, t3, hidx]
    rfl
  intro h
  rw [h, hP] at hQ
  exact absurd hQ (by decide)

/-! ## Shared parser helpers (idParsers.ts, first section)

`text.split(/\r?\n/).map(trim).filter(Boolean)`, `split(/\s+/)`, the
name-likelihood and id-token heuristics, date picking and address
extraction used by the per-type parsers. -/

/-- Split on `\r?\n`: the accumulator holds the current segment reversed;
a `\r` directly before the `\n` belongs to the separator. -/
def splitNLAux : List Char → List Char → List (List Char)
  | acc, [] => [acc.reverse]
  | acc, '\n' :: rest =>
    (match acc with
     | '\r' :: acc2 => acc2.reverse
     | _ => acc.reverse) :: splitNLAux [] rest
  | acc, c :: rest => splitNLAux (c :: acc) rest

/-- `text.split(/\r?\n/).map(l => l.trim()).filter(Boolean)`. -/
def toLines (text : List Char) : List (List Char) :=
  ((splitNLAux [] text).map trimL).filter (· ≠ [])

/-- `split(/\s+/)`: separators are whitespace runs (leading/trailing runs
produce empty fields, as in JS); the flag records whether we are inside a
separator run. -/
def splitWsAux : Bool → List Char → List Char → List (List Char)
  | _, acc, [] => [acc.reverse]
  | prevWs, acc, c :: cs =>
    if jsWs c then
      if prevWs then splitWsAux true acc cs
      else acc.reverse :: splitWsAux true [] cs
    else splitWsAux false (c :: acc) cs

def splitWsL (l : List Char) : List (List Char) := splitWsAux false [] l

/-- JS `a || b` on strings-as-lists. -/
def jsLOr (a b : List Char) : List Char := if a ≠ [] then a else b

/-- First element of maximal length (a stable descending length sort
followed by `[0]`). -/
def firstLongest (h : List Char) (t : List (List Char)) : List Char :=
  t.foldl (fun b x => if x.length > b.length then x else b) h

/-- Case-insensitive containment of any of several substrings
(an `/a|b|.../i` alternation of plain words). -/
def containsAnyCI (pats : List (List Char)) (l : List Char) : Bool :=
  pats.any (fun p => containsCI p l)

/-- `w1\s+w2\s+...` at the head (at least one whitespace between words). -/
def seqWs1At : List (List Char) → List Char → Bool
  | [], _ => true
  | [w], l => startsWithCI w l
  | w :: ws, l =>
    startsWithCI w l &&
      (match l.drop w.length with
       | c :: r2 => jsWs c && seqWs1At ws (r2.dropWhile jsWs)
       | [] => false)

/-- `/w1\s+w2\s+.../i.test(text)`. -/
def containsSeqWs1CI (words : List (List Char)) (l : List Char) : Bool :=
  scanHas (seqWs1At words) l

/-- Unanchored first match for a rest-returning matcher; yields the matched
slice. -/
def scanSlice (m : List Char → Option (List Char)) : List Char → Option (List Char)
  | [] => none
  | c :: cs =>
    match m (c :: cs) with
    | some rest => some ((c :: cs).take ((c :: cs).length - rest.length))
    | none => scanSlice m cs

/-- Like `scanSlice` but with a leading `\b` (patterns starting with a word
character); the flag tracks whether the previous character is a word char. -/
def scanSliceB (m : List Char → Option (List Char)) :
    Bool → List Char → Option (List Char)
  | _, [] => none
  | prevWord, c :: cs =>
    match if prevWord then none else m (c :: cs) with
    | some rest => some ((c :: cs).take ((c :: cs).length - rest.length))
    | none => scanSliceB m (isWordC c) cs

/-- Trailing `\b` after a word character: the next char must not be one. -/
def wordBreakAfter (rest : List Char) : Option (List Char) :=
  match rest with
  | [] => some []
  | c :: _ => if isWordC c then none else some rest

/-- Rest-returning `\d{n1}-\d{n2}-...`. -/
def digitsDashRest : List Nat → List Char → Option (List Char)
  | [], l => some l
  | [n], l =>
    match grabDigits n l with
    | some (_, r) => some r
    | none => none
  | n :: ns, l =>
    match grabDigits n l with
    | some (_, r) =>
      match r with
      | '-' :: r2 => digitsDashRest ns r2
      | _ => none
    | none => none

/-- Greedy optional character with full backtracking into the rest of the
pattern (`X?` for Option-returning continuations). -/
def optCharO {α : Type} (p : Char → Bool) (k : List Char → Option α)
    (l : List Char) : Option α :=
  match l with
  | c :: r =>
    if p c then
      match k r with
      | some v => some v
      | none => k (c :: r)
    else k l
  | [] => k []

/-- One fixed-width alternative of the numeric-date pattern with a
trailing `\b`, returning the rest. -/
def numRestWith (n1 n2 n3 : Nat) (l : List Char) : Option (List Char) :=
  match grabDigits n1 l with
  | none => none
  | some (_, r1) =>
    match parseSlashDash r1 with
    | none => none
    | some r2 =>
      match grabDigits n2 r2 with
      | none => none
      | some (_, r3) =>
        match parseSlashDash r3 with
        | none => none
        | some r4 =>
          match grabDigits n3 r4 with
          | none => none
          | some (_, r5) => wordBreakAfter r5

/-- `\b\d{1,2}[\/\-]\d{1,2}[\/\-]\d{2,4}\b` (rest-returning; greedy
backtracking order). -/
def numDobRest (l : List Char) : Option (List Char) :=
  numRestWith 2 2 4 l <|> numRestWith 2 2 3 l <|> numRestWith 2 2 2 l <|>
  numRestWith 2 1 4 l <|> numRestWith 2 1 3 l <|> numRestWith 2 1 2 l <|>
  numRestWith 1 2 4 l <|> numRestWith 1 2 3 l <|> numRestWith 1 2 2 l <|>
  numRestWith 1 1 4 l <|> numRestWith 1 1 3 l <|> numRestWith 1 1 2 l

/-- After the day digits of the month-name date pattern:
`,?\s+\d{4}\b` (rest-returning). -/
def mtAfterDay (r : List Char) : Option (List Char) :=
  optCharO (· = ',')
    (fun r5 =>
      match r5 with
      | c :: r6 =>
        if jsWs c then
          match grabDigits 4 (r6.dropWhile jsWs) with
          | some (_, r7) => wordBreakAfter r7
          | none => none
        else none
      | [] => none) r

/-- After the month name: `\.?\s+\d{1,2},?\s+\d{4}\b` (rest-returning). -/
def mtTail (l : List Char) : Option (List Char) :=
  optCharO (· = '.')
    (fun r1 =>
      match r1 with
      | c :: r2 =>
        if jsWs c then
          let r3 := r2.dropWhile jsWs
          (match grabDigits 2 r3 with
           | some (_, r4) => mtAfterDay r4
           | none => none) <|>
          (match grabDigits 1 r3 with
           | some (_, r4) => mtAfterDay r4
           | none => none)
        else none
      | [] => none) l

/-- The month alternation of `pickBestDob`: full names first, then the
abbreviations in source order (no abbreviated `May`). -/
def dobMonthAlts : List (List Char) :=
  ["january".data, "february".data, "march".data, "april".data, "may".data,
   "june".data, "july".data, "august".data, "september".data,
   "october".data, "november".data, "december".data,
   "jan".data, "feb".data, "mar".data, "apr".data, "jun".data, "jul".data,
   "aug".data, "sep".data, "oct".data, "nov".data, "dec".data]

/-- Try the month alternatives in order at this position. -/
def monthTextRestAux : List (List Char) → List Char → Option (List Char)
  | [], _ => none
  | a :: alts, l =>
    match (if startsWithCI a l then mtTail (l.drop a.length) else none) with
    | some r => some r
    | none => monthTextRestAux alts l

/-- The month-name date pattern of `pickBestDob` (rest-returning). -/
def monthTextRest (l : List Char) : Option (List Char) :=
  monthTextRestAux dobMonthAlts l

/-- `pickBestDob` (idParsers.ts): first a numeric date, then a month-name
date, each normalised; empty if neither normalises. -/
def pickBestDob (text : List Char) : List Char :=
  let joined := trimL (collapseWs text)
  let tryText :=
    match scanSliceB monthTextRest false joined with
    | some matched => normalizeDateL matched
    | none => []
  match scanSliceB numDobRest false joined with
  | some matched =>
    let norm := normalizeDateL matched
    if norm ≠ [] then norm else tryText
  | none => tryText

/-- `/name\b|surname\b|given\b|middle\b|birth\b|date\b|sex\b|gender\b/i`:
any of the words followed by a non-word character or the end. -/
def hasLabelWord (l : List Char) : Bool :=
  ["name".data, "surname".data, "given".data, "middle".data, "birth".data,
   "date".data, "sex".data, "gender".data].any
    (fun w => scanHas
      (fun s => startsWithCI w s &&
        (match s.drop w.length with
         | [] => true
         | c :: _ => !isWordC c)) l)

/-- `isLikelyNameLine` (idParsers.ts).  The float comparison
`letters / max(len,1) < 0.6` is exact for the integer ratios in scope and
is modelled as `letters * 10 < max(len,1) * 6`. -/
def isLikelyNameLine (line : List Char) : Bool :=
  let trimmed := trimL line
  if trimmed.length < 5 then false
  else if (splitWsL trimmed).length < 2 then false
  else if (trimmed.filter (fun c => c.isAlpha || jsWs c)).length * 10 <
      (max trimmed.length 1) * 6 then false
  else if hasLabelWord trimmed then false
  else true

/-- `pickBestNameLine` (idParsers.ts): longest qualifying line (stable
sort, so the first longest), trimmed. -/
def pickBestNameLine (lines : List (List Char)) : List Char :=
  match lines.filter isLikelyNameLine with
  | [] => []
  | c :: cs => trimL (firstLongest c cs)

/-- `pickBestIdToken` (idParsers.ts).  The float comparison
`cleaned.length / t.length < 0.7` is modelled exactly as
`cleaned*10 < t*7`. -/
def pickBestIdToken (text : List Char) : List Char :=
  let tokens := splitWsL text
  let candidates := tokens.filter (fun t =>
    decide (6 ≤ t.length) && t.any Char.isDigit &&
      decide ((t.filter (fun c => c.isAlphanum || c = '-')).length * 10 ≥
        t.length * 7))
  match candidates with
  | [] => []
  | c :: cs =>
    ((firstLongest c cs).reverse.dropWhile (fun ch => ch = '.' || ch = ',')).reverse

/-- `/\baddress\s*:/i` at a position (leading boundary via scanner). -/
def addressColonAt (s : List Char) : Bool :=
  startsWithCI "address".data s &&
    (match (s.drop 7).dropWhile jsWs with
     | ':' :: _ => true
     | _ => false)

/-- Scan for `\baddress\s*:` with the previous-word flag. -/
def addressColonScan : Bool → List Char → Bool
  | _, [] => false
  | prevWord, c :: cs =>
    (!prevWord && addressColonAt (c :: cs)) || addressColonScan (isWordC c) cs

/-- `extractAddress` (idParsers.ts). -/
def extractAddress (text : List Char) : List Char :=
  let lines := toLines text
  let fallback :=
    (lines.find? (fun l => containsAnyCI
      ["brgy".data, "barangay".data, "street".data, "st.".data, "ave".data,
       "avenue".data, "city".data, "metro".data, "manila".data,
       "quezon".data] l)).getD []
  match lines.findIdx? (fun l =>
      startsWithCI "address".data l || addressColonScan false l) with
  | some idx =>
    let addrLines := ((lines.drop (idx + 1)).take 3).filter (fun l =>
      !(containsAnyCI ["name".data, "birth".data, "sex".data, "date".data,
        "id".data, "number".data, "license".data, "expiry".data] l))
    if addrLines ≠ [] then
      trimL (collapseWs (List.intercalate ", ".data addrLines))
    else fallback
  | none => fallback

/-! ## Per-type parsers (idParsers.ts, first section) -/

/-- Label-anchored line lookup (`getLineBelow` of `parseNationalId`): the
line after the first line matching the test, unless it is itself a label. -/
def getLineBelow (test : List Char → Bool) (lines : List (List Char)) : List Char :=
  match lines.findIdx? test with
  | some idx =>
    if idx + 1 < lines.length then
      let next := trimL (lines.getD (idx + 1) [])
      if containsAnyCI ["apelyido".data, "given".data, "petsa".data,
          "date".data, "kapanganakan".data, "birth".data, "id".data,
          "numero".data] next
      then [] else next
    else []
  | none => []

/-- `\s*\d{4}\b` after the day of the National-ID date regex. -/
def natDobAfterDay (r : List Char) : Option (List Char) :=
  match grabDigits 4 (r.dropWhile jsWs) with
  | some (_, r2) => wordBreakAfter r2
  | none => none

/-- After the month name: `\s+\d{1,2}\s*\d{4}\b` (rest-returning). -/
def natDobTail (l : List Char) : Option (List Char) :=
  match l with
  | c :: r =>
    if jsWs c then
      let r1 := r.dropWhile jsWs
      (match grabDigits 2 r1 with
       | some (_, r2) => natDobAfterDay r2
       | none => none) <|>
      (match grabDigits 1 r1 with
       | some (_, r2) => natDobAfterDay r2
       | none => none)
    else none
  | [] => none

/-- Month alternation of the National-ID date regex (full names only). -/
def natDobRestAux : List (List Char) → List Char → Option (List Char)
  | [], _ => none
  | a :: alts, l =>
    match (if startsWithCI a l then natDobTail (l.drop a.length) else none) with
    | some r => some r
    | none => natDobRestAux alts l

/-- `\b(January|...|December)\s+\d{1,2}\s*\d{4}\b` (rest-returning). -/
def natDobRest (l : List Char) : Option (List Char) :=
  natDobRestAux (monthNames.map Prod.fst) l

/-- `parseNationalId` (idParsers.ts lines 327-377). -/
def parseNationalId (text : String) : ExtractedInfo :=
  let lines := toLines text.data
  let joined := collapseWs text.data
  let idNumber := (scanSliceB (fun l =>
    match digitsDashRest [4, 4, 4, 4] l with
    | some r => wordBreakAfter r
    | none => none) false joined).getD []
  let lastName := jsLOr
    (getLineBelow (fun l => containsCI "apelyido".data l ||
      seqWsCI ["last".data, "name".data] l) lines)
    ((lines.find? (fun l => decide (3 ≤ l.length) &&
      l.all (fun c => c.isUpper || jsWs c))).getD [])
  let givenNames := getLineBelow (fun l =>
    seqWsCI ["mga".data, "pangalan".data] l ||
      seqWsCI ["given".data, "names".data] l) lines
  let middleName := getLineBelow (fun l =>
    seqWsCI ["gitnang".data, "apelyido".data] l ||
      seqWsCI ["middle".data, "name".data] l) lines
  let dobRaw := (scanSliceB natDobRest false joined).getD []
  let dob := normalizeDateL dobRaw
  let fullName := trimL (List.intercalate " ".data
    (([givenNames, middleName, lastName]).filter (· ≠ [])))
  { fullName := ⟨fullName⟩, dob := ⟨dob⟩, idNumber := ⟨idNumber⟩,
    idType := "National ID", address := none,
    confidence := some ⟨if fullName ≠ [] then 95/100 else 4/10,
      if dob ≠ [] then 9/10 else 4/10,
      if idNumber ≠ [] then 1 else 3/10, none⟩ }

/-- `^[A-Z][A-Za-z'\-]+,\s*[A-Za-z]` (the PhilHealth name-line test). -/
def philNameTest (l : List Char) : Bool :=
  match l with
  | c :: r =>
    c.isUpper &&
      (let run := r.takeWhile (fun ch => ch.isAlpha || ch = '\'' || ch = '-')
       run ≠ [] &&
         (match r.drop run.length with
          | ',' :: r2 =>
            (match r2.dropWhile jsWs with
             | d :: _ => d.isAlpha
             | [] => false)
          | _ => false))
  | [] => false

/-- `split(",", 2)`: the parts before the first and between the first and
second comma (the second is empty when there is no comma, like the
JS `|| ""`). -/
def splitComma2 (l : List Char) : List Char × List Char :=
  let first := l.takeWhile (· ≠ ',')
  if first.length = l.length then (first, [])
  else (first, (l.drop (first.length + 1)).takeWhile (· ≠ ','))

/-- The abbreviated-month table of `parsePhilHealthId` (`monthMap`). -/
def abbrevMonths : List (List Char × List Char) :=
  [("jan".data, "01".data), ("feb".data, "02".data), ("mar".data, "03".data),
   ("apr".data, "04".data), ("may".data, "05".data), ("jun".data, "06".data),
   ("jul".data, "07".data), ("aug".data, "08".data), ("sep".data, "09".data),
   ("oct".data, "10".data), ("nov".data, "11".data), ("dec".data, "12".data)]

/-- `(\d{1,2}),\s*(\d{4})\b` with a fixed day width. -/
def philDayComma (r : List Char) (n : Nat) : Option (List Char × List Char) :=
  match grabDigits n r with
  | some (d, r4) =>
    match r4 with
    | ',' :: r5 =>
      match grabDigits 4 (r5.dropWhile jsWs) with
      | some (y, r6) =>
        match wordBreakAfter r6 with
        | some _ => some (d, y)
        | none => none
      | none => none
    | _ => none
  | none => none

/-- After the month abbreviation: `\.?\s+(\d{1,2}),\s*(\d{4})\b`,
returning (day, year). -/
def philDobTail (l : List Char) : Option (List Char × List Char) :=
  optCharO (· = '.')
    (fun r1 =>
      match r1 with
      | c :: r2 =>
        if jsWs c then
          let r3 := r2.dropWhile jsWs
          (philDayComma r3 2) <|> (philDayComma r3 1)
        else none
      | [] => none) l

/-- The abbreviation alternation, returning (month code, day, year). -/
def philDobScanAux : List (List Char × List Char) → List Char →
    Option (List Char × List Char × List Char)
  | [], _ => none
  | (abbr, code) :: alts, l =>
    match (if startsWithCI abbr l then philDobTail (l.drop abbr.length)
      else none) with
    | some (d, y) => some (code, d, y)
    | none => philDobScanAux alts l

/-- Scan for the abbreviated date with the leading `\b`. -/
def philDobScanB : Bool → List Char →
    Option (List Char × List Char × List Char)
  | _, [] => none
  | prevWord, c :: cs =>
    match (if prevWord then none else philDobScanAux abbrevMonths (c :: cs)) with
    | some v => some v
    | none => philDobScanB (isWordC c) cs

/-- `parsePhilHealthId` (idParsers.ts lines 380-455). -/
def parsePhilHealthId (text : String) : ExtractedInfo :=
  let lines := toLines text.data
  let joined := trimL (collapseWs text.data)
  let idNumber := (scanSliceB (fun l =>
    match digitsDashRest [2, 9, 1] l with
    | some r => wordBreakAfter r
    | none => none) false joined).getD []
  let fullName :=
    match lines.find? philNameTest with
    | some nameLine =>
      let parts := splitComma2 nameLine
      let lastName := trimL parts.1
      let givenPart := trimL parts.2
      if lastName ≠ [] ∧ givenPart ≠ [] then
        trimL (collapseWs (givenPart ++ ' ' :: lastName))
      else nameLine
    | none => []
  let dob :=
    match philDobScanB false joined with
    | some (code, d, y) => y ++ '-' :: code ++ '-' :: pad2 d
    | none => []
  { fullName := ⟨fullName⟩, dob := ⟨dob⟩, idNumber := ⟨idNumber⟩,
    idType := "PhilHealth ID", address := none,
    confidence := some ⟨if fullName ≠ [] then 85/100 else 3/10,
      if dob ≠ [] then 85/100 else 3/10,
      if idNumber ≠ [] then 98/100 else 4/10, none⟩ }

/-- First match over all suffixes (unanchored, no boundary). -/
def scanFind {α : Type} (m : List Char → Option α) : List Char → Option α
  | [] => m []
  | c :: cs =>
    match m (c :: cs) with
    | some v => some v
    | none => scanFind m cs

/-- `CRN-?\s*(\d{4})-?\s*(\d{7})-?\s*(\d)` at the head, returning the three
capture groups. -/
def crnCaptureAt (l : List Char) :
    Option (List Char × List Char × List Char) :=
  if startsWithCI "crn".data l then
    optCharO (· = '-')
      (fun r1 =>
        match grabDigits 4 (r1.dropWhile jsWs) with
        | some (p1, r3) =>
          optCharO (· = '-')
            (fun r4 =>
              match grabDigits 7 (r4.dropWhile jsWs) with
              | some (p2, r6) =>
                optCharO (· = '-')
                  (fun r7 =>
                    match grabDigits 1 (r7.dropWhile jsWs) with
                    | some (p3, _) => some (p1, p2, p3)
                    | none => none) r6
              | none => none) r3
        | none => none) (l.drop 3)
  else none

/-- `(\d{4})[\/\-](\d{2})[\/\-](\d{2})` at the head (the UMID birth date). -/
def umidDobAt (l : List Char) :
    Option (List Char × List Char × List Char) :=
  match grabDigits 4 l with
  | some (y, r1) =>
    match parseSlashDash r1 with
    | some r2 =>
      match grabDigits 2 r2 with
      | some (m, r3) =>
        match parseSlashDash r3 with
        | some r4 =>
          match grabDigits 2 r4 with
          | some (d, _) => some (y, m, d)
          | none => none
        | none => none
      | none => none
    | none => none
  | none => none

/-- `parseUMID` (idParsers.ts lines 457-537). -/
def parseUMID (text : String) : ExtractedInfo :=
  let lines := toLines text.data
  let joined := trimL (collapseWs text.data)
  let idNumber :=
    match scanFind crnCaptureAt joined with
    | some (p1, p2, p3) => "CRN-".data ++ p1 ++ '-' :: p2 ++ '-' :: p3
    | none => []
  let surnameIdx := lines.findIdx? (fun l => containsCI "surname".data l)
  let givenIdx := lines.findIdx?
    (fun l => containsSeqWs1CI ["given".data, "name".data] l)
  let middleIdx := lines.findIdx?
    (fun l => containsSeqWs1CI ["middle".data, "name".data] l)
  let lastName :=
    match surnameIdx with
    | some i => if i + 1 < lines.length then trimL (lines.getD (i + 1) []) else []
    | none => []
  let givenNames :=
    match givenIdx with
    | some gi =>
      let start := gi + 1
      let stop := match middleIdx with
        | some mi => mi
        | none => lines.length
      let givenLines := (((lines.drop start).take (stop - start)).map trimL).filter
        (fun l => l ≠ [] &&
          !(containsSeqWs1CI ["middle".data, "name".data] l))
      trimL (collapseWs (List.intercalate " ".data givenLines))
    | none => []
  let middleName :=
    match middleIdx with
    | some mi =>
      if mi + 1 < lines.length then trimL (lines.getD (mi + 1) []) else []
    | none => []
  let fullName := trimL (collapseWs (List.intercalate " ".data
    ([givenNames, middleName, lastName].filter (· ≠ []))))
  let dob :=
    match lines.findIdx?
      (fun l => containsSeqWs1CI ["date".data, "of".data, "birth".data] l) with
    | some di =>
      if di + 1 < lines.length then
        match scanFind umidDobAt (trimL (lines.getD (di + 1) [])) with
        | some (y, m, d) => y ++ '-' :: m ++ '-' :: d
        | none => []
      else []
    | none => []
  { fullName := ⟨fullName⟩, dob := ⟨dob⟩, idNumber := ⟨idNumber⟩,
    idType := "UMID", address := none,
    confidence := some ⟨if fullName ≠ [] then 8/10 else 3/10,
      if dob ≠ [] then 85/100 else 3/10,
      if idNumber ≠ [] then 95/100 else 4/10, none⟩ }

/-- `[A-Z]?\d{2,3}-\d{2}-\d{6}` (rest-returning, greedy optional letter
and greedy first group). -/
def dlNumRest (l : List Char) : Option (List Char) :=
  match l with
  | c :: r =>
    if c.isUpper then
      (digitsDashRest [3, 2, 6] r <|> digitsDashRest [2, 2, 6] r) <|>
      (digitsDashRest [3, 2, 6] (c :: r) <|> digitsDashRest [2, 2, 6] (c :: r))
    else digitsDashRest [3, 2, 6] l <|> digitsDashRest [2, 2, 6] l
  | [] => none

/-- `([A-Z][A-Z']+),\s*([A-Z]<cls>+)` at the head, returning the two
groups; `cls2` is the second bracket class (with or without `.`). -/
def commaNameAt (cls2 : Char → Bool) (l : List Char) :
    Option (List Char × List Char) :=
  match l with
  | c :: r =>
    if c.isUpper then
      let run1 := r.takeWhile (fun ch => ch.isUpper || ch = '\'')
      if run1 ≠ [] then
        match r.drop run1.length with
        | ',' :: r2 =>
          (match r2.dropWhile jsWs with
           | c2 :: r4 =>
             if c2.isUpper then
               let run2 := r4.takeWhile cls2
               if run2 ≠ [] then some (c :: run1, c2 :: run2) else none
             else none
           | [] => none)
        | _ => none
      else none
    else none
  | [] => none

/-- The second bracket class of the Driver's-License name regex:
`[A-Z'\s]`. -/
def dlNameCls (ch : Char) : Bool := ch.isUpper || ch = '\'' || jsWs ch

/-- The second bracket class of the SSS/City name regex: `[A-Z'\s.]`. -/
def sssNameCls (ch : Char) : Bool :=
  ch.isUpper || ch = '\'' || jsWs ch || ch = '.'

/-- `parseDriversLicense` (idParsers.ts lines 672-725, the first
version). -/
def parseDriversLicense (text : String) : ExtractedInfo :=
  let lines := toLines text.data
  let joined := trimL (collapseWs text.data)
  let idNumber := (scanSlice dlNumRest joined).getD []
  let lastNameIdx := lines.findIdx?
    (fun l => seqWsCI ["last".data, "name".data] l)
  let firstNameIdx := lines.findIdx? (fun l =>
    seqWsCI ["first".data, "name".data] l || containsCI "given".data l)
  let labelName :=
    match lastNameIdx with
    | some li =>
      if li + 1 < lines.length then
        let lastName := lines.getD (li + 1) []
        let firstName :=
          match firstNameIdx with
          | some fi =>
            if fi + 1 < lines.length then lines.getD (fi + 1) [] else []
          | none => []
        trimL (List.intercalate " ".data
          ([firstName, lastName].filter (· ≠ [])))
      else []
    | none => []
  let fullName := jsLOr labelName
    (match scanFind (commaNameAt dlNameCls) joined with
     | some (g1, g2) => trimL g2 ++ ' ' :: trimL g1
     | none => [])
  let dob := pickBestDob joined
  let address := extractAddress text.data
  { fullName := ⟨trimL (collapseWs fullName)⟩, dob := ⟨dob⟩,
    idNumber := ⟨idNumber⟩, idType := "Driver's License",
    address := some ⟨address⟩,
    confidence := some ⟨if fullName ≠ [] then 85/100 else 3/10,
      if dob ≠ [] then 8/10 else 3/10,
      if idNumber ≠ [] then 95/100 else 3/10,
      some (if address ≠ [] then 7/10 else 2/10)⟩ }

/-- `parseSSSId` (idParsers.ts lines 729-763, the first version). -/
def parseSSSId (text : String) : ExtractedInfo :=
  let lines := toLines text.data
  let joined := trimL (collapseWs text.data)
  let idNumber := (scanSlice (digitsDashRest [2, 7, 1]) joined).getD []
  let fullName := jsLOr
    (match scanFind (commaNameAt sssNameCls) joined with
     | some (g1, g2) => trimL g2 ++ ' ' :: trimL g1
     | none => [])
    (pickBestNameLine lines)
  let dob := pickBestDob joined
  { fullName := ⟨trimL (collapseWs fullName)⟩, dob := ⟨dob⟩,
    idNumber := ⟨idNumber⟩, idType := "SSS ID", address := none,
    confidence := some ⟨if fullName ≠ [] then 85/100 else 3/10,
      if dob ≠ [] then 8/10 else 3/10,
      if idNumber ≠ [] then 95/100 else 3/10, none⟩ }

/-- `QC-?\s*\d{6,}` at the head (rest-returning). -/
def qcAt (l : List Char) : Option (List Char) :=
  if startsWithCI "qc".data l then
    optCharO (· = '-')
      (fun r1 =>
        let r2 := r1.dropWhile jsWs
        let run := r2.takeWhile Char.isDigit
        if 6 ≤ run.length then some (r2.drop run.length) else none)
      (l.drop 2)
  else none

/-- `\b\d{8,}\b`: a maximal digit run of length at least 8 with word
boundaries on both sides. -/
def digitRun8B : Bool → List Char → Option (List Char)
  | _, [] => none
  | prevWord, c :: cs =>
    match (if prevWord then none else
      (let run := (c :: cs).takeWhile Char.isDigit
       if 8 ≤ run.length then
         match (c :: cs).drop run.length with
         | [] => some run
         | d :: _ => if isWordC d then none else some run
       else none)) with
    | some v => some v
    | none => digitRun8B (isWordC c) cs

/-- `parseCityId` (idParsers.ts lines 767-814). -/
def parseCityId (text : String) : ExtractedInfo :=
  let lines := toLines text.data
  let joined := trimL (collapseWs text.data)
  let idNumber :=
    match scanSlice qcAt joined with
    | some matched => matched.filter (fun ch => !jsWs ch)
    | none => (digitRun8B false joined).getD []
  let fullName := jsLOr
    (match scanFind (commaNameAt sssNameCls) joined with
     | some (g1, g2) => trimL g2 ++ ' ' :: trimL g1
     | none => [])
    (pickBestNameLine lines)
  let dob := pickBestDob joined
  let address := extractAddress text.data
  { fullName := ⟨trimL (collapseWs fullName)⟩, dob := ⟨dob⟩,
    idNumber := ⟨idNumber⟩, idType := "City ID",
    address := some ⟨address⟩,
    confidence := some ⟨if fullName ≠ [] then 75/100 else 3/10,
      if dob ≠ [] then 7/10 else 3/10,
      if idNumber ≠ [] then 8/10 else 3/10,
      some (if address ≠ [] then 7/10 else 2/10)⟩ }

/-- `parseGeneric` (idParsers.ts lines 614-642). -/
def parseGeneric (text : String) : ExtractedInfo :=
  let lines := toLines text.data
  let joined := trimL (collapseWs text.data)
  let fullName := pickBestNameLine lines
  let dob := pickBestDob joined
  let idNumber := pickBestIdToken joined
  { fullName := ⟨fullName⟩, dob := ⟨dob⟩, idNumber := ⟨idNumber⟩,
    idType := "Unknown", address := none,
    confidence := some ⟨if fullName ≠ [] then 7/10 else 3/10,
      if dob ≠ [] then 6/10 else 2/10,
      if idNumber ≠ [] then 6/10 else 2/10, none⟩ }

/-- `parseTextByIdType` (idParsers.ts lines 817-836): the `switch` over the
requested type (`City ID`, `QC ID` and `Other` share the City branch). -/
def parseTextByIdType (text : String) (idType : String) : ExtractedInfo :=
  if idType = "National ID" then parseNationalId text
  else if idType = "PhilHealth ID" then parsePhilHealthId text
  else if idType = "UMID" then parseUMID text
  else if idType = "Driver's License" then parseDriversLicense text
  else if idType = "SSS ID" then parseSSSId text
  else if idType = "City ID" ∨ idType = "QC ID" ∨ idType = "Other" then
    parseCityId text
  else parseGeneric text

example : (parseNationalId "Apelyido\nDELA CRUZ\nMga Pangalan\nJUAN PEDRO\nJanuary 3 1999\n1234-5678-9012-3456").fullName
    = "JUAN PEDRO DELA CRUZ" := by decide
example : (parseNationalId "Apelyido\nDELA CRUZ\nMga Pangalan\nJUAN PEDRO\nJanuary 3 1999\n1234-5678-9012-3456").dob
    = "1999-01-03" := by decide
example : (parseNationalId "x 1234-5678-9012-3456").idNumber
    = "1234-5678-9012-3456" := by decide
example : (parseUMID "SURNAME\nSANTOS\nGIVEN NAME\nMARIA\nMIDDLE NAME\nLOPEZ\nDATE OF BIRTH\n1999/01/03").fullName
    = "MARIA LOPEZ SANTOS" := by decide
example : (parseUMID "UMID CRN-1234-5678901-2").idNumber
    = "CRN-1234-5678901-2" := by decide
example : (parsePhilHealthId "SANTOS, JUAN M.\nJan. 03, 1999").dob
    = "1999-01-03" := by decide
example : (parseSSSId "SANTOS, MARIA C. 01-2345678-9").fullName
    = "MARIA C. SANTOS" := by decide
example : (parseCityId "CRUZ, JUAN QC-123456789").idNumber
    = "QC-123456789" := by decide
example : (parseDriversLicense "LAST NAME\nSANTOS\nFIRST NAME\nMARIA\nN12-34-567890").idNumber
    = "N12-34-567890" := by decide
example : (parseGeneric "JUAN DELA CRUZ\nID: ABC-123456").idNumber
    = "ABC-123456" := by decide

/-- Spec-side table: the constant `idType` each parser branch stamps on its
record. -/
def idTypeTable (idType : String) : String :=
  if idType = "National ID" then "National ID"
  else if idType = "PhilHealth ID" then "PhilHealth ID"
  else if idType = "UMID" then "UMID"
  else if idType = "Driver's License" then "Driver's License"
  else if idType = "SSS ID" then "SSS ID"
  else if idType = "City ID" ∨ idType = "QC ID" ∨ idType = "Other" then
    "City ID"
  else "Unknown"

/-- **C10.** For every text, `parseTextByIdType` returns a record whose
`idType` is the fixed non-empty constant of the requested type's parser
branch, independent of the text; `City ID`, `QC ID` and `Other` all map to
`City ID`, and an unrecognized requested type maps to `Unknown`. -/
theorem parseTextByIdType_claims (ty t : String) :
    (parseTextByIdType t ty).idType = idTypeTable ty ∧
    idTypeTable ty ≠ "" ∧
    (parseTextByIdType t "City ID").idType = "City ID" ∧
    (parseTextByIdType t "QC ID").idType = "City ID" ∧
    (parseTextByIdType t "Other").idType = "City ID" ∧
    (parseTextByIdType t "PRC ID").idType = "Unknown" := by
  refine ⟨?_, ?_, rfl, rfl, rfl, rfl⟩
  · rw [parseTextByIdType, idTypeTable]
    split_ifs <;> rfl
  · rw [idTypeTable]
    split_ifs <;> decide

end IVisit
